import Mathlib

/-!
# Deinde.io client: state synchronisation handlers

A shallow embedding of the socket handlers of `src/client/js/app.js`
(`playerSync`, `serverSendPowerupChange`, `serverSendPowerupArray`) and of the
movement part of `draw` in `src/client/js/pixigame.js`.

JavaScript numbers are modelled over exact rational arithmetic; the two
non-numeric results that the handlers can produce (`undefined` for a field that
a record does not carry, `NaN` for arithmetic on it) are kept as separate values.
-/

namespace Deinde

/-! ## Values -/

/-- A number-valued slot of a JavaScript object: a number (exact rational
arithmetic), `undefined` (the property is missing) or `NaN`. -/
inductive JSNum where
  | num (q : ℚ)
  | undefined
  | NaN
  deriving DecidableEq

namespace JSNum

/-- The JavaScript product `a * b`: `undefined` converts to `NaN`, and `NaN` is absorbing. -/
def mul : JSNum → JSNum → JSNum
  | num a, num b => num (a * b)
  | _, _ => NaN

/-- The JavaScript sum `a + b` of two number-valued slots. -/
def add : JSNum → JSNum → JSNum
  | num a, num b => num (a + b)
  | _, _ => NaN

/-- The JavaScript difference `a - b`. -/
def sub : JSNum → JSNum → JSNum
  | num a, num b => num (a - b)
  | _, _ => NaN

/-- What a slot holds after it went through arithmetic that leaves numbers
alone: a number stays, `undefined` and `NaN` both end as `NaN`. -/
def settle : JSNum → JSNum
  | num a => num a
  | _ => NaN

end JSNum

/-- The function `lerp(v0, v1, t)` of app.js:227, `v0 * (1 - t) + v1 * t`. -/
def lerp (v0 v1 t : JSNum) : JSNum :=
  JSNum.add (JSNum.mul v0 (JSNum.sub (JSNum.num 1) t)) (JSNum.mul v1 t)

/-! ## Players -/

/-- One record of a `playerSync` snapshot as it arrives from the wire. Every
property may be missing: `none` for the text properties, `JSNum.undefined` for
the numeric ones. -/
structure PlayerRecord where
  id : Option String
  name : Option String
  room : Option String
  x : JSNum
  y : JSNum
  theta : JSNum
  speed : JSNum
  powerups : Option (List Nat)
  deriving DecidableEq

/-- Modelled from the spec: the class `Player` that app.js imports from
`./player.js`, a file that is not among the sources. The entity carries the
eight values handed to its constructor at app.js:166; `x`, `y`, `theta` and
`speed` are the properties that the handler reads and writes at app.js:178-181. -/
structure Player where
  id : Option String
  name : Option String
  room : Option String
  x : JSNum
  y : JSNum
  theta : JSNum
  speed : JSNum
  powerups : Option (List Nat)
  deriving DecidableEq

/-- Modelled from the spec: the constructor call
`new Player(pl.id, pl.name, pl.room, pl.x, pl.y, pl.theta, pl.speed, pl.powerups)`
of the missing `./player.js`; each argument is stored in the property of its name. -/
def Player.new (id name room : Option String) (x y theta speed : JSNum)
    (powerups : Option (List Nat)) : Player :=
  { id := id, name := name, room := room, x := x, y := y, theta := theta, speed := speed,
    powerups := powerups }

/-- Modelled from the spec: `setCoordinates(newX, newY)` of the missing
`./player.js`, the direct assignment of the two coordinates; it has the shape
of `setCoordinates` in gameobject.js:35. -/
def Player.setCoordinates (p : Player) (newX newY : JSNum) : Player :=
  { p with x := newX, y := newY }

/-- Modelled from the spec: `setData` of the missing `./player.js`, called at
app.js:163 with the record's `x, y, theta, speed`. It has the shape of
`GameObject.setData` (gameobject.js:47): set the coordinates, then assign the
two motion values by direct assignment. -/
def Player.setData (p : Player) (newX newY newTheta newSpeed : JSNum) : Player :=
  { p.setCoordinates newX newY with theta := newTheta, speed := newSpeed }

/-! ## The player registry

`players` is a plain JavaScript object used as a map from socket id to
`Player`. It is modelled by an association list in enumeration order. -/

/-- The object `players`: own properties in enumeration order. -/
abbrev Registry := List (String × Player)

/-- A `playerSync` payload in the order in which `for (let player in data)`
enumerates it: property name and its value, `none` for `null`. A JavaScript
object has each property name once, which the theorems assume as
`(data.map Prod.fst).Nodup`. -/
abbrev Snapshot := List (String × Option PlayerRecord)

/-- The read `players[id]` of an own property; `none` is `undefined`.
Identifiers are socket ids: the names that every object inherits from
`Object.prototype` are outside the model. -/
def lookup : Registry → String → Option Player
  | [], _ => none
  | (k, p) :: r, id => if k = id then some p else lookup r id

/-- The write `players[id] = p`: replaces the value of an existing property in
place, or adds the property at the end. -/
def assign : Registry → String → Player → Registry
  | [], id, p => [(id, p)]
  | (k, q) :: r, id, p => if k = id then (k, p) :: r else (k, q) :: assign r id p

/-- The statement `delete players[id]`. -/
def deleteKey (r : Registry) (id : String) : Registry :=
  r.filter (fun e => decide (e.1 ≠ id))

/-- The property names that `for (let pl in players)` enumerates. -/
def keys (r : Registry) : List String := r.map Prod.fst

/-! ## The `playerSync` handler (app.js:150-186) -/

/-- The body of the first loop (app.js:156-172) for one property of `data`. -/
def syncEntry (players : Registry) (e : String × Option PlayerRecord) : Registry :=
  match e.2 with
  | some pl =>
    match lookup players e.1 with
    | some p => assign players e.1 (p.setData pl.x pl.y pl.theta pl.speed)
    | none =>
      assign players e.1
        (Player.new pl.id pl.name pl.room pl.x pl.y pl.theta pl.speed pl.powerups)
  | none => deleteKey players e.1

/-- The body of the second loop (app.js:176-183) for one property name.
`let oldPlayers = players` (app.js:152) binds a second name to the same
object, so `oldPlayers[pl]` is the very entity `players[pl]`: each of the four
statements reads both arguments of `lerp` from the current state of that one
entity. `LERP` is `GLOBAL.LERP_VALUE`, `socketId` is `socket.id`. -/
def lerpEntry (LERP : ℚ) (socketId : String) (players : Registry) (pl : String) : Registry :=
  match lookup players pl with
  | none => players
  | some p =>
    if pl ≠ socketId then
      let p1 := { p with x := lerp p.x p.x (JSNum.num LERP) }
      let p2 := { p1 with y := lerp p1.y p1.y (JSNum.num LERP) }
      let p3 := { p2 with theta := lerp p2.theta p2.theta (JSNum.num LERP) }
      let p4 := { p3 with speed := lerp p3.speed p3.speed (JSNum.num LERP) }
      assign players pl p4
    else players

/-- The handler `socket.on('playerSync', data => ...)`: the registry after the
handler, from the registry before it and the payload. -/
def playerSync (LERP : ℚ) (socketId : String) (players : Registry) (data : Snapshot) :
    Registry :=
  let players1 := data.foldl syncEntry players
  (keys players1).foldl (lerpEntry LERP socketId) players1

/-! ### Closed forms used to reason about the handler -/

/-- What the first loop leaves under a property name, from what was there and
the value that the payload carries for it. -/
def applyValue (old : Option Player) (v : Option PlayerRecord) : Option Player :=
  match v with
  | none => none
  | some pl =>
    match old with
    | some p => some (p.setData pl.x pl.y pl.theta pl.speed)
    | none => some (Player.new pl.id pl.name pl.room pl.x pl.y pl.theta pl.speed pl.powerups)

/-- What the second loop leaves of an entity: the four motion slots settled,
the other properties as they were. -/
def settled (p : Player) : Player :=
  { p with x := p.x.settle, y := p.y.settle, theta := p.theta.settle, speed := p.speed.settle }

/-- The effect of the second loop under a property name: every entity but the
local one is settled. -/
def afterLerp (socketId id : String) (p : Player) : Player :=
  if id ≠ socketId then settled p else p

/-! ## The powerup list (app.js:188-201) -/

/-- The call `a.splice(start, deleteCount)` of `Array.prototype.splice` for
integer arguments, as the array it leaves behind: a negative `start` counts
from the end and is clamped at 0, a `start` beyond the end is clamped at the
length, and the number of removed elements is clamped to what is there. -/
def splice {α : Type} (a : List α) (start deleteCount : Int) : List α :=
  let len : Int := a.length
  let actualStart : Int := if start < 0 then max (len + start) 0 else min start len
  let actualDeleteCount : Int := min (max deleteCount 0) (len - actualStart)
  a.take actualStart.toNat ++ a.drop (actualStart.toNat + actualDeleteCount.toNat)

/-- The handler `socket.on('serverSendPowerupChange', data => ...)` (app.js:189):
`powerups.splice(data.index, 1)`, with `index` the integer `data.index`. -/
def serverSendPowerupChange {α : Type} (powerups : List α) (index : Int) : List α :=
  splice powerups index 1

/-- The handler `socket.on('serverSendPowerupArray', data => ...)` (app.js:195):
every entry of `data.powerups`, in order, is pushed on the current list as
`createPowerup(powerup.typeID, powerups.length)`. The function `createPowerup`
comes from `./powerup.js`, which is not among the sources, and is a parameter;
`data` lists the `typeID` of each arriving entry. -/
def serverSendPowerupArray {τ α : Type} (createPowerup : τ → Nat → α) (powerups : List α)
    (data : List τ) : List α :=
  data.foldl (fun powerups typeID => powerups ++ [createPowerup typeID powerups.length]) powerups

/-! ## The movement part of `draw` (pixigame.js:145-220) -/

/-- The constants of `GLOBAL` (from `./global`, not among the sources) that the
movement code reads. -/
structure Global where
  MAX_SPEED : ℚ
  VELOCITY_STEP : ℚ

/-- The `isDown` flags of `moveKeys[0..3]`: A (left), D (right), W (up), S (down). -/
structure MoveKeys where
  left : Bool
  right : Bool
  up : Bool
  down : Bool
  deriving DecidableEq

/-- The flags of `joystick.mobileKey` that `draw` reads. -/
structure MobileKey where
  leftDown : Bool
  rightDown : Bool
  upDown : Bool
  downDown : Bool
  deriving DecidableEq

/-- The properties of the local `player` object that the movement code reads
or writes: world position, velocity, speed multiplier, the `isMoving` flag and
the sprite position on screen. -/
structure LocalPlayer where
  posX : ℚ
  posY : ℚ
  vx : ℚ
  vy : ℚ
  speedMult : ℚ
  isMoving : Bool
  x : ℚ
  y : ℚ
  deriving DecidableEq

/-- The function `movePlayer(direction)` (pixigame.js:384): nothing happens
unless `player.isMoving`; otherwise the velocity component of the direction
moves by `GLOBAL.VELOCITY_STEP * player.speedMult`. -/
def movePlayer (G : Global) (player : LocalPlayer) (direction : String) : LocalPlayer :=
  if player.isMoving then
    let player :=
      if direction = "up" then { player with vy := player.vy + G.VELOCITY_STEP * player.speedMult }
      else player
    let player :=
      if direction = "down" then
        { player with vy := player.vy + -G.VELOCITY_STEP * player.speedMult }
      else player
    let player :=
      if direction = "right" then
        { player with vx := player.vx + G.VELOCITY_STEP * player.speedMult }
      else player
    let player :=
      if direction = "left" then
        { player with vx := player.vx + -G.VELOCITY_STEP * player.speedMult }
      else player
    player
  else player

/-- The key handling block of `draw` (pixigame.js:149-181). `accept` is the
value of `isFocused() && inGame`. When input is accepted the four directions
are tested in the order left, right, up, down, each on the velocity that the
tests before it left, and `isMoving` is then recomputed from the move keys
alone; otherwise `isMoving` is cleared and every move key is released. -/
def drawKeys (G : Global) (accept : Bool) (joystick : MobileKey) (moveKeys : MoveKeys)
    (player : LocalPlayer) : LocalPlayer × MoveKeys :=
  if accept then
    let player :=
      if (moveKeys.left || joystick.leftDown) ∧ player.vx > -G.MAX_SPEED * player.speedMult then
        movePlayer G player "left"
      else player
    let player :=
      if (moveKeys.right || joystick.rightDown) ∧ player.vx < G.MAX_SPEED * player.speedMult then
        movePlayer G player "right"
      else player
    let player :=
      if (moveKeys.up || joystick.upDown) ∧ player.vy < G.MAX_SPEED * player.speedMult then
        movePlayer G player "up"
      else player
    let player :=
      if (moveKeys.down || joystick.downDown) ∧ player.vy > -G.MAX_SPEED * player.speedMult then
        movePlayer G player "down"
      else player
    let player := { player with isMoving := false }
    let player :=
      [moveKeys.left, moveKeys.right, moveKeys.up, moveKeys.down].foldl
        (fun player isDown => if isDown then { player with isMoving := true } else player) player
    (player, moveKeys)
  else
    ({ player with isMoving := false },
      { left := false, right := false, up := false, down := false })

/-- The damping block of `draw` (pixigame.js:184-189). -/
def drawDamp (G : Global) (moveKeys : MoveKeys) (player : LocalPlayer) : LocalPlayer :=
  let player :=
    if !moveKeys.up && !moveKeys.down then { player with vy := player.vy * G.VELOCITY_STEP }
    else player
  let player :=
    if !moveKeys.left && !moveKeys.right then { player with vx := player.vx * G.VELOCITY_STEP }
    else player
  player

/-- The movement part of one call of `draw` for a defined `player`
(pixigame.js:147-189): the key handling block, then the damping block on the
move keys as the key handling block left them. -/
def drawMove (G : Global) (accept : Bool) (joystick : MobileKey) (moveKeys : MoveKeys)
    (player : LocalPlayer) : LocalPlayer × MoveKeys :=
  let r := drawKeys G accept joystick moveKeys player
  (drawDamp G r.2 r.1, r.2)

/-! ## The end of `draw`: `player.tick()` and the `move` message (pixigame.js:208-219) -/

/-- The screen centre that `loadTextures` computes (pixigame.js:38). -/
structure Screen where
  screenCenterX : ℚ
  screenCenterY : ℚ

/-- Modelled from the spec: the method `draw()` of the class `GameObject` that
obj/player.js extends. That class is imported from `./gameobject.js` under
`obj/`, a file that is not among the sources. The spec keeps rendering outside
the core as a reader of entity positions, so the method writes the sprite
position on screen only; the placement is the one of `draw()` in
client/js/gameobject.js:57, with `player` the module variable of pixigame.js. -/
def GameObject.draw (S : Screen) (player this : LocalPlayer) : LocalPlayer :=
  { this with
    x := S.screenCenterX + this.posX - player.posX
    y := S.screenCenterY + player.posY - this.posY }

/-- Modelled from the spec: the method `tick` of the same absent class, which
obj/player.js:107 calls as `super.tick(true)` under the comment `Movement`.
The spec: position integrates velocity once per tick, `position += velocity`.
The `tick()` of client/js/gameobject.js takes no parameter and belongs to a
module that obj/player.js does not import; it is not the method called. -/
def GameObject.tick (this : LocalPlayer) : LocalPlayer :=
  { this with posX := this.posX + this.vx, posY := this.posY + this.vy }

/-- The method `Player.tick()` (obj/player.js:105) called on the local player,
which is the module variable `player` itself: `super.tick(true)`, then the text
and rotation statements, which write sprite children only, then `this.draw()`
when `this.id !== socket.id`; `sameId` is `this.id === socket.id`. -/
def LocalPlayer.tick (S : Screen) (sameId : Bool) (this : LocalPlayer) : LocalPlayer :=
  let this := GameObject.tick this
  if !sameId then GameObject.draw S this this else this

/-- The payload of `socket.emit('move', ...)` (pixigame.js:212), without the
constant `type` and the `id`. -/
structure MoveMessage where
  posX : ℚ
  posY : ℚ
  vx : ℚ
  vy : ℚ
  deriving DecidableEq

/-- One call of `draw` for a defined `player` (pixigame.js:147-220): key
handling, damping, `player.tick()`, then the `move` message. The shooting block
(pixigame.js:191-206) calls `requestCreateCompound`, which is not among the
sources, and writes no property of `player` itself; it is left out, as is the
loop over the other objects. -/
def drawPlayer (G : Global) (S : Screen) (accept : Bool) (joystick : MobileKey)
    (sameId : Bool) (moveKeys : MoveKeys) (player : LocalPlayer) :
    LocalPlayer × MoveKeys × MoveMessage :=
  let r := drawMove G accept joystick moveKeys player
  let player := LocalPlayer.tick S sameId r.1
  (player, r.2, { posX := player.posX, posY := player.posY, vx := player.vx, vy := player.vy })

/-- The function `draw(delta)` (pixigame.js:145) on the module variable `player`,
`none` for `undefined`: nothing of the player part runs while there is no player. -/
def draw (G : Global) (S : Screen) (accept : Bool) (joystick : MobileKey) (sameId : Bool)
    (moveKeys : MoveKeys) (player : Option LocalPlayer) :
    Option LocalPlayer × MoveKeys × Option MoveMessage :=
  match player with
  | none => (none, moveKeys, none)
  | some p =>
    let r := drawPlayer G S accept joystick sameId moveKeys p
    (some r.1, r.2.1, some r.2.2)

/-! ## Connection handling (app.js:30-74, 131-139, 235-252) -/

/-- The module state of app.js that `quitGame` writes: whether `socket` is
still open (`false` once `socket.disconnect()` ran), the two registries and the
text put into the element `startMenuMessage`. -/
structure Session (α : Type) where
  socketOpen : Bool
  players : Registry
  powerups : List α
  startMenuMessage : String

/-- The function `quitGame(msg)` (app.js:235): disconnect, wipe the players
list, wipe the powerups list, show the menu with the message. -/
def quitGame {α : Type} (st : Session α) (msg : String) : Session α :=
  let st := { st with socketOpen := false }
  let st := { st with players := [] }
  let st := { st with powerups := [] }
  { st with startMenuMessage := msg }

/-- The handler `socket.on('reconnecting', attempt => ...)` (app.js:136): a
console message, then `quitGame('Lost connection to server')`. -/
def onReconnecting {α : Type} (st : Session α) (_attempt : Nat) : Session α :=
  quitGame st "Lost connection to server"

/-- The two endpoints of `startGame`: `GLOBAL.LOCAL_HOST` (primary) and
`GLOBAL.SERVER_IP` (fallback). -/
inductive Endpoint where
  | LOCAL_HOST
  | SERVER_IP
  deriving DecidableEq

/-- A call that `startGame` or its timer makes on a socket. -/
inductive SocketCall where
  | connect (e : Endpoint)
  | disconnect (e : Endpoint)
  | setupSocket (e : Endpoint)
  deriving DecidableEq

/-- The connection state of `startGame`: the endpoint of the socket that the
variable `socket` holds, its property `socket.connected`, and the calls made so
far, oldest first. -/
structure Conn where
  socket : Endpoint
  connected : Bool
  calls : List SocketCall
  deriving DecidableEq

/-- The connection part of `startGame()` (app.js:50-53) for a valid nick:
`socket = io.connect(GLOBAL.LOCAL_HOST, ...)`; the socket is not connected yet.
With an invalid nick nothing is connected and no timer is set. -/
def startGame (validNick : Bool) : Option Conn :=
  if validNick then
    some { socket := Endpoint.LOCAL_HOST, connected := false,
           calls := [SocketCall.connect Endpoint.LOCAL_HOST] }
  else none

/-- The transport reports that the socket held by `socket` is connected:
`socket.connected` becomes true. -/
def onConnected (c : Conn) : Conn :=
  { c with connected := true }

/-- The callback of `setTimeout(..., 1000)` in `startGame` (app.js:56-70): when
`socket.connected` is false the socket is disconnected and `socket` is replaced
by a new connection to `GLOBAL.SERVER_IP`; then `SetupSocket(socket)` runs on
whichever socket `socket` holds. -/
def fallbackTimer (c : Conn) : Conn :=
  let c :=
    if !c.connected then
      { socket := Endpoint.SERVER_IP, connected := false,
        calls := c.calls ++ [SocketCall.disconnect c.socket,
          SocketCall.connect Endpoint.SERVER_IP] }
    else c
  { c with calls := c.calls ++ [SocketCall.setupSocket c.socket] }

/-! ## Lemmas on values and on the registry -/

theorem lerp_self (v : JSNum) (t : ℚ) : lerp v v (JSNum.num t) = v.settle := by
  cases v with
  | num a =>
    simp only [lerp, JSNum.mul, JSNum.sub, JSNum.add, JSNum.settle]
    congr 1
    ring
  | undefined => rfl
  | NaN => rfl

theorem settle_settle (v : JSNum) : v.settle.settle = v.settle := by
  cases v <;> rfl

theorem settled_settled (p : Player) : settled (settled p) = settled p := by
  simp [settled, settle_settle]

theorem afterLerp_afterLerp (socketId id : String) (p : Player) :
    afterLerp socketId id (afterLerp socketId id p) = afterLerp socketId id p := by
  unfold afterLerp
  split <;> simp [settled_settled]

theorem lookup_assign (r : Registry) (k id : String) (p : Player) :
    lookup (assign r k p) id = if k = id then some p else lookup r id := by
  induction r with
  | nil => simp [assign, lookup]
  | cons e r ih =>
    obtain ⟨k0, q⟩ := e
    by_cases h0 : k0 = k
    · subst h0
      by_cases h1 : k0 = id <;> simp [assign, lookup, h1]
    · by_cases h1 : k0 = id
      · subst h1
        have h2 : ¬ k = k0 := fun h => h0 h.symm
        simp [assign, lookup, h0, h2]
      · simp [assign, lookup, h0, h1, ih]

theorem lookup_deleteKey (r : Registry) (k id : String) :
    lookup (deleteKey r k) id = if k = id then none else lookup r id := by
  induction r with
  | nil => simp [deleteKey, lookup]
  | cons e r ih =>
    obtain ⟨k0, q⟩ := e
    have ih2 : lookup (List.filter (fun e => !decide (e.1 = k)) r) id =
        if k = id then none else lookup r id := by
      simpa [deleteKey] using ih
    by_cases h0 : k0 = k
    · subst h0
      by_cases h1 : k0 = id
      · subst h1
        simpa [deleteKey, List.filter, lookup] using ih2
      · simp [deleteKey, List.filter, lookup, h1, ih2]
    · by_cases h1 : k0 = id
      · subst h1
        have h2 : ¬ k = k0 := fun h => h0 h.symm
        simp [deleteKey, List.filter, lookup, h0, h2]
      · simp [deleteKey, List.filter, lookup, h0, h1, ih2]

theorem mem_keys_iff (r : Registry) (id : String) : id ∈ keys r ↔ lookup r id ≠ none := by
  induction r with
  | nil => simp [keys, lookup]
  | cons e r ih =>
    obtain ⟨k0, q⟩ := e
    by_cases h1 : k0 = id
    · simp [keys, lookup, h1]
    · have h2 : ¬ id = k0 := fun h => h1 h.symm
      simpa [keys, lookup, h1, h2] using ih

/-! ## Lemmas on the two loops of `playerSync` -/

theorem lookup_syncEntry (r : Registry) (e : String × Option PlayerRecord) (id : String) :
    lookup (syncEntry r e) id = if e.1 = id then applyValue (lookup r id) e.2 else lookup r id := by
  obtain ⟨k, v⟩ := e
  cases v with
  | none => simp [syncEntry, lookup_deleteKey, applyValue]
  | some pl =>
    by_cases h : k = id
    · subst h
      cases hl : lookup r k <;> simp [syncEntry, hl, lookup_assign, applyValue]
    · cases hl : lookup r k <;> simp [syncEntry, hl, lookup_assign, h]

theorem lookup_foldl_syncEntry_of_not_mem (s : Snapshot) (r : Registry) (id : String)
    (h : id ∉ s.map Prod.fst) : lookup (s.foldl syncEntry r) id = lookup r id := by
  induction s generalizing r with
  | nil => rfl
  | cons e s ih =>
    simp only [List.map_cons, List.mem_cons, not_or] at h
    rw [List.foldl_cons, ih _ h.2, lookup_syncEntry]
    have : ¬ e.1 = id := fun h1 => h.1 h1.symm
    simp [this]

theorem lookup_foldl_syncEntry_of_mem (s : Snapshot) (r : Registry) (id : String)
    (v : Option PlayerRecord) (hkeys : (s.map Prod.fst).Nodup) (hv : (id, v) ∈ s) :
    lookup (s.foldl syncEntry r) id = applyValue (lookup r id) v := by
  induction s generalizing r with
  | nil => simp at hv
  | cons e s ih =>
    simp only [List.map_cons, List.nodup_cons] at hkeys
    rw [List.foldl_cons]
    rcases List.mem_cons.1 hv with h | h
    · subst h
      rw [lookup_foldl_syncEntry_of_not_mem _ _ _ hkeys.1, lookup_syncEntry]
      simp
    · have hne : ¬ e.1 = id := by
        intro h1
        apply hkeys.1
        rw [h1]
        exact List.mem_map_of_mem Prod.fst h
      rw [ih _ hkeys.2 h, lookup_syncEntry]
      simp [hne]

theorem lerpEntry_eq (LERP : ℚ) (socketId : String) (r : Registry) (pl : String) :
    lerpEntry LERP socketId r pl =
      match lookup r pl with
      | none => r
      | some p => if pl ≠ socketId then assign r pl (settled p) else r := by
  unfold lerpEntry
  cases lookup r pl with
  | none => rfl
  | some p => simp only [lerp_self, settled]

theorem lookup_lerpEntry (LERP : ℚ) (socketId : String) (r : Registry) (pl id : String) :
    lookup (lerpEntry LERP socketId r pl) id =
      if pl = id then (lookup r id).map (afterLerp socketId id) else lookup r id := by
  rw [lerpEntry_eq]
  by_cases h : pl = id
  · subst h
    cases hl : lookup r pl with
    | none => simp [hl]
    | some p =>
      by_cases hs : pl = socketId
      · subst hs
        simp [hl, afterLerp]
      · simp [hs, afterLerp, lookup_assign]
  · cases hl : lookup r pl with
    | none => simp [h]
    | some p =>
      by_cases hs : pl = socketId
      · subst hs
        simp [h]
      · simp [h, hs, lookup_assign]

theorem lookup_foldl_lerpEntry (LERP : ℚ) (socketId : String) (ks : List String) (r : Registry)
    (id : String) :
    lookup (ks.foldl (lerpEntry LERP socketId) r) id =
      if id ∈ ks then (lookup r id).map (afterLerp socketId id) else lookup r id := by
  induction ks generalizing r with
  | nil => simp
  | cons k ks ih =>
    rw [List.foldl_cons, ih, lookup_lerpEntry]
    by_cases hk : k = id
    · subst hk
      by_cases hm : k ∈ ks
      · cases hl : lookup r k <;> simp [hm, afterLerp_afterLerp]
      · simp [hm]
    · have hk2 : ¬ id = k := fun h => hk h.symm
      simp [hk, hk2]

theorem lookup_lerpPass (LERP : ℚ) (socketId : String) (r : Registry) (id : String) :
    lookup ((keys r).foldl (lerpEntry LERP socketId) r) id =
      (lookup r id).map (afterLerp socketId id) := by
  rw [lookup_foldl_lerpEntry]
  by_cases h : id ∈ keys r
  · simp [h]
  · have : lookup r id = none := by
      by_contra hc
      exact h ((mem_keys_iff r id).2 hc)
    simp [h, this]

theorem lookup_playerSync_of_mem (LERP : ℚ) (socketId : String) (r : Registry) (s : Snapshot)
    (id : String) (v : Option PlayerRecord) (hkeys : (s.map Prod.fst).Nodup)
    (hv : (id, v) ∈ s) :
    lookup (playerSync LERP socketId r s) id =
      (applyValue (lookup r id) v).map (afterLerp socketId id) := by
  unfold playerSync
  simp only
  rw [lookup_lerpPass, lookup_foldl_syncEntry_of_mem s r id v hkeys hv]

theorem lookup_playerSync_of_not_mem (LERP : ℚ) (socketId : String) (r : Registry)
    (s : Snapshot) (id : String) (h : id ∉ s.map Prod.fst) :
    lookup (playerSync LERP socketId r s) id = (lookup r id).map (afterLerp socketId id) := by
  unfold playerSync
  simp only
  rw [lookup_lerpPass, lookup_foldl_syncEntry_of_not_mem s r id h]

/-! ## Claims on `playerSync` -/

/-- Claim C1 (tombstone removal). For every registry and every identifier, the
`playerSync` handler applied to a snapshot whose entry for the identifier is
`null` leaves a registry in which the identifier is absent: reading it gives
`undefined` and it is no longer among the property names, whether or not it
was present before. -/
theorem playerSync_tombstone_removes (LERP : ℚ) (socketId : String) (players : Registry)
    (data : Snapshot) (id : String) (hkeys : (data.map Prod.fst).Nodup)
    (hnull : (id, none) ∈ data) :
    lookup (playerSync LERP socketId players data) id = none ∧
      id ∉ keys (playerSync LERP socketId players data) := by
  have h : lookup (playerSync LERP socketId players data) id = none := by
    rw [lookup_playerSync_of_mem LERP socketId players data id none hkeys hnull]
    rfl
  refine ⟨h, ?_⟩
  intro hmem
  exact (mem_keys_iff _ _).1 hmem h

theorem playerSync_tombstone_removes_witness :
    (([("p1", none)] : Snapshot).map Prod.fst).Nodup ∧
      lookup (playerSync (1 / 10) "me"
        [("p1", Player.new (some "p1") (some "ann") (some "lobby") (JSNum.num 3) (JSNum.num 4)
          (JSNum.num 0) (JSNum.num 1) none)] [("p1", none)]) "p1" = none :=
  ⟨by decide,
    (playerSync_tombstone_removes (1 / 10) "me"
      [("p1", Player.new (some "p1") (some "ann") (some "lobby") (JSNum.num 3) (JSNum.num 4)
        (JSNum.num 0) (JSNum.num 1) none)] [("p1", none)] "p1" (by decide) (by decide)).1⟩

/-- Claim C2, refuted as stated. The local entity `me` stands at `x = 0, y = 0`;
a snapshot carrying a record for `me` with `x = 5, y = 7` moves it there. -/
theorem playerSync_local_moved :
    lookup [("me", Player.new (some "me") (some "ann") (some "lobby") (JSNum.num 0)
        (JSNum.num 0) (JSNum.num 0) (JSNum.num 0) none)] "me" =
      some (Player.new (some "me") (some "ann") (some "lobby") (JSNum.num 0)
        (JSNum.num 0) (JSNum.num 0) (JSNum.num 0) none) ∧
    lookup (playerSync (1 / 10) "me"
        [("me", Player.new (some "me") (some "ann") (some "lobby") (JSNum.num 0)
          (JSNum.num 0) (JSNum.num 0) (JSNum.num 0) none)]
        [("me", some { id := some "me", name := some "ann", room := some "lobby",
                       x := JSNum.num 5, y := JSNum.num 7, theta := JSNum.num 1,
                       speed := JSNum.num 2, powerups := none })]) "me" =
      some (Player.new (some "me") (some "ann") (some "lobby") (JSNum.num 5)
        (JSNum.num 7) (JSNum.num 1) (JSNum.num 2) none) := by
  decide

/-- Claim C2, amended. For every registry that contains the local entity and
every snapshot that carries a record for `socket.id`, the handler assigns the
record's `x`, `y`, `theta` and `speed` to the local entity, as it does for any
identifier that is present; the local entity is exempt from the blending loop
only, so the four values afterwards are exactly those of the record, and the
other properties are kept. -/
theorem playerSync_local_takes_record (LERP : ℚ) (socketId : String) (players : Registry)
    (data : Snapshot) (p : Player) (pl : PlayerRecord)
    (hkeys : (data.map Prod.fst).Nodup) (hlocal : lookup players socketId = some p)
    (hrec : (socketId, some pl) ∈ data) :
    ∃ q, lookup (playerSync LERP socketId players data) socketId = some q ∧
      q.x = pl.x ∧ q.y = pl.y ∧ q.theta = pl.theta ∧ q.speed = pl.speed ∧
      q.id = p.id ∧ q.name = p.name ∧ q.room = p.room ∧ q.powerups = p.powerups := by
  refine ⟨p.setData pl.x pl.y pl.theta pl.speed, ?_, rfl, rfl, rfl, rfl, rfl, rfl, rfl, rfl⟩
  rw [lookup_playerSync_of_mem LERP socketId players data socketId (some pl) hkeys hrec, hlocal]
  simp [applyValue, afterLerp]

theorem playerSync_local_takes_record_witness :
    ∃ q, lookup (playerSync (1 / 10) "me"
        [("me", Player.new (some "me") (some "ann") (some "lobby") (JSNum.num 0)
          (JSNum.num 0) (JSNum.num 0) (JSNum.num 0) none)]
        [("me", some { id := some "me", name := some "ann", room := some "lobby",
                       x := JSNum.num 5, y := JSNum.num 7, theta := JSNum.num 1,
                       speed := JSNum.num 2, powerups := none })]) "me" = some q ∧
      q.x = JSNum.num 5 ∧ q.y = JSNum.num 7 ∧ q.theta = JSNum.num 1 ∧ q.speed = JSNum.num 2 ∧
      q.id = some "me" ∧ q.name = some "ann" ∧ q.room = some "lobby" ∧ q.powerups = none :=
  playerSync_local_takes_record (1 / 10) "me"
    [("me", Player.new (some "me") (some "ann") (some "lobby") (JSNum.num 0)
      (JSNum.num 0) (JSNum.num 0) (JSNum.num 0) none)]
    [("me", some { id := some "me", name := some "ann", room := some "lobby",
                   x := JSNum.num 5, y := JSNum.num 7, theta := JSNum.num 1,
                   speed := JSNum.num 2, powerups := none })]
    (Player.new (some "me") (some "ann") (some "lobby") (JSNum.num 0)
      (JSNum.num 0) (JSNum.num 0) (JSNum.num 0) none)
    { id := some "me", name := some "ann", room := some "lobby",
      x := JSNum.num 5, y := JSNum.num 7, theta := JSNum.num 1,
      speed := JSNum.num 2, powerups := none }
    (by decide) (by decide) (by decide)

/-- Claim C3, the code at the failing input. The remote entity `p1` holds
`x = 0` and the snapshot carries `x = 10` for it, with `LERP_VALUE = 1/10`:
the blend of the claim is `lerp(10, 0, 1/10) = 9`, but the handler leaves
`x = 10`, because `oldPlayers[pl]` is the entity that `setData` has just
overwritten. The same holds for `y`, `theta` and `speed`. -/
theorem playerSync_remote_not_blended :
    lookup (playerSync (1 / 10) "me"
        [("p1", Player.new (some "p1") (some "bob") (some "lobby") (JSNum.num 0)
          (JSNum.num 0) (JSNum.num 0) (JSNum.num 0) none)]
        [("p1", some { id := some "p1", name := some "bob", room := some "lobby",
                       x := JSNum.num 10, y := JSNum.num 20, theta := JSNum.num 30,
                       speed := JSNum.num 40, powerups := none })]) "p1" =
      some (Player.new (some "p1") (some "bob") (some "lobby") (JSNum.num 10)
        (JSNum.num 20) (JSNum.num 30) (JSNum.num 40) none) ∧
    lerp (JSNum.num 10) (JSNum.num 0) (JSNum.num (1 / 10)) = JSNum.num 9 := by
  constructor
  · rw [lookup_playerSync_of_mem (1 / 10) "me" _ _ "p1" _ (by decide) (List.mem_singleton.2 rfl)]
    simp [lookup, applyValue, afterLerp, settled, JSNum.settle, Player.setData,
      Player.setCoordinates, Player.new]
  · simp only [lerp, JSNum.mul, JSNum.sub, JSNum.add]
    norm_num

theorem setData_afterLerp (socketId id : String) (p : Player) (a b c d : JSNum) :
    (afterLerp socketId id p).setData a b c d = p.setData a b c d := by
  unfold afterLerp
  split <;> rfl

theorem setData_new (pl : PlayerRecord) :
    (Player.new pl.id pl.name pl.room pl.x pl.y pl.theta pl.speed pl.powerups).setData
        pl.x pl.y pl.theta pl.speed =
      Player.new pl.id pl.name pl.room pl.x pl.y pl.theta pl.speed pl.powerups := rfl

theorem applyValue_map_afterLerp (socketId id : String) (o : Option Player)
    (v : Option PlayerRecord) :
    applyValue ((applyValue o v).map (afterLerp socketId id)) v = applyValue o v := by
  cases v with
  | none => rfl
  | some pl =>
    cases o with
    | none => simp [applyValue, setData_afterLerp, setData_new]
    | some p =>
      simp only [applyValue, Option.map_some', setData_afterLerp]
      rfl

/-- Claim C4 (idempotence of repeated identical snapshots). For every registry
and every snapshot, applying the handler with the snapshot twice in succession
gives the same registry as applying it once: every identifier reads the same
entity (the same `x`, `y`, `theta`, `speed` and other properties, over exact
arithmetic) or is absent in both, and the property names are the same. -/
theorem playerSync_idempotent (LERP : ℚ) (socketId : String) (players : Registry)
    (data : Snapshot) (hkeys : (data.map Prod.fst).Nodup) :
    (∀ id, lookup (playerSync LERP socketId (playerSync LERP socketId players data) data) id =
        lookup (playerSync LERP socketId players data) id) ∧
    (∀ id, id ∈ keys (playerSync LERP socketId (playerSync LERP socketId players data) data) ↔
        id ∈ keys (playerSync LERP socketId players data)) := by
  have h : ∀ id, lookup (playerSync LERP socketId (playerSync LERP socketId players data) data) id =
      lookup (playerSync LERP socketId players data) id := by
    intro id
    by_cases hm : id ∈ data.map Prod.fst
    · obtain ⟨e, he, rfl⟩ := List.mem_map.1 hm
      obtain ⟨k, v⟩ := e
      rw [lookup_playerSync_of_mem LERP socketId _ data k v hkeys he,
        lookup_playerSync_of_mem LERP socketId players data k v hkeys he,
        applyValue_map_afterLerp]
    · rw [lookup_playerSync_of_not_mem LERP socketId _ data id hm,
        lookup_playerSync_of_not_mem LERP socketId players data id hm]
      cases lookup players id <;> simp [afterLerp_afterLerp]
  refine ⟨h, fun id => ?_⟩
  rw [mem_keys_iff, mem_keys_iff, h]

theorem playerSync_idempotent_witness :
    (([("p1", some { id := some "p1", name := some "bob", room := some "lobby",
                     x := JSNum.num 10, y := JSNum.num 20, theta := JSNum.num 30,
                     speed := JSNum.num 40, powerups := none }), ("p2", none)] :
        Snapshot).map Prod.fst).Nodup ∧
    ∀ id, lookup (playerSync (1 / 10) "me"
        (playerSync (1 / 10) "me"
          [("p1", Player.new (some "p1") (some "bob") (some "lobby") (JSNum.num 0)
            (JSNum.num 0) (JSNum.num 0) (JSNum.num 0) none)]
          [("p1", some { id := some "p1", name := some "bob", room := some "lobby",
                         x := JSNum.num 10, y := JSNum.num 20, theta := JSNum.num 30,
                         speed := JSNum.num 40, powerups := none }), ("p2", none)])
        [("p1", some { id := some "p1", name := some "bob", room := some "lobby",
                       x := JSNum.num 10, y := JSNum.num 20, theta := JSNum.num 30,
                       speed := JSNum.num 40, powerups := none }), ("p2", none)]) id =
      lookup (playerSync (1 / 10) "me"
          [("p1", Player.new (some "p1") (some "bob") (some "lobby") (JSNum.num 0)
            (JSNum.num 0) (JSNum.num 0) (JSNum.num 0) none)]
          [("p1", some { id := some "p1", name := some "bob", room := some "lobby",
                         x := JSNum.num 10, y := JSNum.num 20, theta := JSNum.num 30,
                         speed := JSNum.num 40, powerups := none }), ("p2", none)]) id :=
  ⟨by decide,
    (playerSync_idempotent (1 / 10) "me"
      [("p1", Player.new (some "p1") (some "bob") (some "lobby") (JSNum.num 0)
        (JSNum.num 0) (JSNum.num 0) (JSNum.num 0) none)]
      [("p1", some { id := some "p1", name := some "bob", room := some "lobby",
                     x := JSNum.num 10, y := JSNum.num 20, theta := JSNum.num 30,
                     speed := JSNum.num 40, powerups := none }), ("p2", none)]
      (by decide)).1⟩

theorem lookup_playerSync_record (LERP : ℚ) (socketId : String) (players : Registry)
    (data : Snapshot) (id : String) (pl : PlayerRecord) (hkeys : (data.map Prod.fst).Nodup)
    (hrec : (id, some pl) ∈ data) :
    ∃ q, lookup (playerSync LERP socketId players data) id = some q ∧
      q.x = (if id ≠ socketId then pl.x.settle else pl.x) ∧
      q.y = (if id ≠ socketId then pl.y.settle else pl.y) ∧
      q.theta = (if id ≠ socketId then pl.theta.settle else pl.theta) ∧
      q.speed = (if id ≠ socketId then pl.speed.settle else pl.speed) := by
  rw [lookup_playerSync_of_mem LERP socketId players data id (some pl) hkeys hrec]
  by_cases h : id = socketId <;> cases lookup players id <;>
    simp [applyValue, afterLerp, h, settled, Player.setData, Player.setCoordinates, Player.new]

/-- Claim C5 (convergence). For every remote entity already in the registry with
initial coordinates `x0`, `y0`, every target `Px`, `Py` and every sequence of
`N` successive snapshots that each carry the target for that entity, the
tracked coordinates after the `N` snapshots satisfy
`|x_N - Px| ≤ |x0 - Px| * (1 - w)^N` and `|y_N - Py| ≤ |y0 - Py| * (1 - w)^N`
over exact arithmetic, where `w = 1 - LERP_VALUE` and `0 < w ≤ 1`. -/
theorem playerSync_converges (w : ℚ) (_hw0 : 0 < w) (hw1 : w ≤ 1) (socketId id : String)
    (hremote : id ≠ socketId) (Px Py : ℚ) (snaps : List Snapshot)
    (hsnaps : ∀ s ∈ snaps, (s.map Prod.fst).Nodup ∧
      ∃ pl, (id, some pl) ∈ s ∧ pl.x = JSNum.num Px ∧ pl.y = JSNum.num Py)
    (players : Registry) (p : Player) (x0 y0 : ℚ)
    (hp : lookup players id = some p) (hx : p.x = JSNum.num x0) (hy : p.y = JSNum.num y0) :
    ∃ q xN yN, lookup (snaps.foldl (playerSync (1 - w) socketId) players) id = some q ∧
      q.x = JSNum.num xN ∧ q.y = JSNum.num yN ∧
      |xN - Px| ≤ |x0 - Px| * (1 - w) ^ snaps.length ∧
      |yN - Py| ≤ |y0 - Py| * (1 - w) ^ snaps.length := by
  have hw : 0 ≤ 1 - w := by linarith
  induction snaps generalizing players p x0 y0 with
  | nil => exact ⟨p, x0, y0, hp, hx, hy, by simp, by simp⟩
  | cons s rest ih =>
    obtain ⟨hk, pl, hmem, hplx, hply⟩ := hsnaps s (List.mem_cons_self s rest)
    obtain ⟨q1, hq1, hq1x, hq1y, -, -⟩ :=
      lookup_playerSync_record (1 - w) socketId players s id pl hk hmem
    rw [if_pos hremote, hplx] at hq1x
    rw [if_pos hremote, hply] at hq1y
    obtain ⟨q, xN, yN, hq, hqx, hqy, hbx, hby⟩ :=
      ih (fun t ht => hsnaps t (List.mem_cons_of_mem s ht)) _ q1 Px Py hq1 hq1x hq1y
    refine ⟨q, xN, yN, hq, hqx, hqy, ?_, ?_⟩
    · have h0 : |xN - Px| ≤ 0 := by simpa using hbx
      exact h0.trans (mul_nonneg (abs_nonneg _) (pow_nonneg hw _))
    · have h0 : |yN - Py| ≤ 0 := by simpa using hby
      exact h0.trans (mul_nonneg (abs_nonneg _) (pow_nonneg hw _))

theorem playerSync_converges_witness :
    ∃ q xN yN,
      lookup (List.foldl (playerSync (1 - 9 / 10) "me")
        [("p1", Player.new (some "p1") (some "bob") (some "lobby") (JSNum.num 0)
          (JSNum.num 4) (JSNum.num 0) (JSNum.num 0) none)]
        [[("p1", some { id := some "p1", name := some "bob", room := some "lobby",
                        x := JSNum.num 10, y := JSNum.num 20, theta := JSNum.num 0,
                        speed := JSNum.num 0, powerups := none })],
         [("p1", some { id := some "p1", name := some "bob", room := some "lobby",
                        x := JSNum.num 10, y := JSNum.num 20, theta := JSNum.num 1,
                        speed := JSNum.num 1, powerups := none })]]) "p1" = some q ∧
      q.x = JSNum.num xN ∧ q.y = JSNum.num yN ∧
      |xN - 10| ≤ |(0 : ℚ) - 10| * (1 - 9 / 10) ^ 2 ∧
      |yN - 20| ≤ |(4 : ℚ) - 20| * (1 - 9 / 10) ^ 2 :=
  playerSync_converges (9 / 10) (by norm_num) (by norm_num) "me" "p1" (by decide) 10 20
    [[("p1", some { id := some "p1", name := some "bob", room := some "lobby",
                    x := JSNum.num 10, y := JSNum.num 20, theta := JSNum.num 0,
                    speed := JSNum.num 0, powerups := none })],
     [("p1", some { id := some "p1", name := some "bob", room := some "lobby",
                    x := JSNum.num 10, y := JSNum.num 20, theta := JSNum.num 1,
                    speed := JSNum.num 1, powerups := none })]]
    (by
      intro s hs
      simp only [List.mem_cons, List.mem_singleton, List.not_mem_nil, or_false] at hs
      rcases hs with rfl | rfl
      · exact ⟨by decide, _, List.mem_singleton.2 rfl, rfl, rfl⟩
      · exact ⟨by decide, _, List.mem_singleton.2 rfl, rfl, rfl⟩)
    [("p1", Player.new (some "p1") (some "bob") (some "lobby") (JSNum.num 0)
      (JSNum.num 4) (JSNum.num 0) (JSNum.num 0) none)]
    (Player.new (some "p1") (some "bob") (some "lobby") (JSNum.num 0)
      (JSNum.num 4) (JSNum.num 0) (JSNum.num 0) none)
    0 4 (by decide) rfl rfl

/-- Claim C9, refuted as stated. The snapshot record for `p1` carries `x = 5`
and lacks `y`, `theta` and `speed`. The entry is not skipped: an entity `p1`
that was present at `(0, 0)` is overwritten (`x = 5`, the missing values end as
`NaN`), and an identifier that was absent is created from the partial record. -/
theorem playerSync_partial_record_not_skipped :
    lookup (playerSync (1 / 10) "me"
        [("p1", Player.new (some "p1") (some "bob") (some "lobby") (JSNum.num 0)
          (JSNum.num 0) (JSNum.num 0) (JSNum.num 0) none)]
        [("p1", some { id := some "p1", name := some "bob", room := some "lobby",
                       x := JSNum.num 5, y := JSNum.undefined, theta := JSNum.undefined,
                       speed := JSNum.undefined, powerups := none })]) "p1" =
      some (Player.new (some "p1") (some "bob") (some "lobby") (JSNum.num 5)
        JSNum.NaN JSNum.NaN JSNum.NaN none) ∧
    lookup (playerSync (1 / 10) "me" []
        [("p1", some { id := some "p1", name := some "bob", room := some "lobby",
                       x := JSNum.num 5, y := JSNum.undefined, theta := JSNum.undefined,
                       speed := JSNum.undefined, powerups := none })]) "p1" =
      some (Player.new (some "p1") (some "bob") (some "lobby") (JSNum.num 5)
        JSNum.NaN JSNum.NaN JSNum.NaN none) := by
  constructor
  · rw [lookup_playerSync_of_mem (1 / 10) "me" _ _ "p1" _ (by decide) (List.mem_singleton.2 rfl)]
    simp [lookup, applyValue, afterLerp, settled, JSNum.settle, Player.setData,
      Player.setCoordinates, Player.new]
  · rw [lookup_playerSync_of_mem (1 / 10) "me" _ _ "p1" _ (by decide) (List.mem_singleton.2 rfl)]
    simp [lookup, applyValue, afterLerp, settled, JSNum.settle, Player.new]

/-- Claim C9, amended. The handler validates nothing: a record is applied
whether or not it lacks fields. For every registry and every snapshot that
carries a record for an identifier, the first loop assigns the record's `x`,
`y`, `theta` and `speed` to the entity by direct assignment, a missing field as
`undefined`, or creates the entity from the record when the identifier was
absent; the identifier is in the registry after the handler; and every other
identifier ends as if the entry were not in the snapshot. The values that the
blending loop leaves are not part of this statement. -/
theorem playerSync_partial_record_applied (LERP : ℚ) (socketId : String) (players : Registry)
    (data : Snapshot) (id : String) (pl : PlayerRecord) (hkeys : (data.map Prod.fst).Nodup)
    (hrec : (id, some pl) ∈ data) :
    lookup (data.foldl syncEntry players) id =
      some (match lookup players id with
        | some p => p.setData pl.x pl.y pl.theta pl.speed
        | none => Player.new pl.id pl.name pl.room pl.x pl.y pl.theta pl.speed pl.powerups) ∧
    lookup (playerSync LERP socketId players data) id ≠ none ∧
    id ∈ keys (playerSync LERP socketId players data) ∧
    ∀ other, other ≠ id →
      lookup (playerSync LERP socketId players data) other =
        lookup (playerSync LERP socketId players
          (data.filter (fun e => decide (e.1 ≠ id)))) other := by
  have hpresent : lookup (playerSync LERP socketId players data) id ≠ none := by
    rw [lookup_playerSync_of_mem LERP socketId players data id (some pl) hkeys hrec]
    cases lookup players id <;> simp [applyValue]
  refine ⟨?_, hpresent, (mem_keys_iff _ _).2 hpresent, ?_⟩
  · rw [lookup_foldl_syncEntry_of_mem data players id (some pl) hkeys hrec]
    cases lookup players id <;> rfl
  intro other hne
  have hsub : List.Sublist ((data.filter (fun e => decide (e.1 ≠ id))).map Prod.fst)
      (data.map Prod.fst) :=
    (List.filter_sublist data).map Prod.fst
  have hkeys2 := hkeys.sublist hsub
  by_cases hm : other ∈ data.map Prod.fst
  · obtain ⟨e, he, rfl⟩ := List.mem_map.1 hm
    obtain ⟨k, v⟩ := e
    have he2 : (k, v) ∈ data.filter (fun e => decide (e.1 ≠ id)) := by
      simp [List.mem_filter, he, hne]
    rw [lookup_playerSync_of_mem LERP socketId players data k v hkeys he,
      lookup_playerSync_of_mem LERP socketId players _ k v hkeys2 he2]
  · have hm2 : other ∉ (data.filter (fun e => decide (e.1 ≠ id))).map Prod.fst :=
      fun h => hm (hsub.subset h)
    rw [lookup_playerSync_of_not_mem LERP socketId players data other hm,
      lookup_playerSync_of_not_mem LERP socketId players _ other hm2]

theorem playerSync_partial_record_applied_witness :
    lookup (List.foldl syncEntry
        [("p1", Player.new (some "p1") (some "bob") (some "lobby") (JSNum.num 0)
          (JSNum.num 0) (JSNum.num 0) (JSNum.num 0) none)]
        [("p1", some { id := some "p1", name := some "bob", room := some "lobby",
                       x := JSNum.num 5, y := JSNum.undefined, theta := JSNum.undefined,
                       speed := JSNum.undefined, powerups := none }),
         ("p2", none)]) "p1" =
      some (Player.new (some "p1") (some "bob") (some "lobby") (JSNum.num 5)
        JSNum.undefined JSNum.undefined JSNum.undefined none) ∧
    "p1" ∈ keys (playerSync (1 / 10) "me"
        [("p1", Player.new (some "p1") (some "bob") (some "lobby") (JSNum.num 0)
          (JSNum.num 0) (JSNum.num 0) (JSNum.num 0) none)]
        [("p1", some { id := some "p1", name := some "bob", room := some "lobby",
                       x := JSNum.num 5, y := JSNum.undefined, theta := JSNum.undefined,
                       speed := JSNum.undefined, powerups := none }),
         ("p2", none)]) :=
  ⟨(playerSync_partial_record_applied (1 / 10) "me"
      [("p1", Player.new (some "p1") (some "bob") (some "lobby") (JSNum.num 0)
        (JSNum.num 0) (JSNum.num 0) (JSNum.num 0) none)]
      [("p1", some { id := some "p1", name := some "bob", room := some "lobby",
                     x := JSNum.num 5, y := JSNum.undefined, theta := JSNum.undefined,
                     speed := JSNum.undefined, powerups := none }),
       ("p2", none)]
      "p1"
      { id := some "p1", name := some "bob", room := some "lobby",
        x := JSNum.num 5, y := JSNum.undefined, theta := JSNum.undefined,
        speed := JSNum.undefined, powerups := none }
      (by decide) (by decide)).1,
    (playerSync_partial_record_applied (1 / 10) "me"
      [("p1", Player.new (some "p1") (some "bob") (some "lobby") (JSNum.num 0)
        (JSNum.num 0) (JSNum.num 0) (JSNum.num 0) none)]
      [("p1", some { id := some "p1", name := some "bob", room := some "lobby",
                     x := JSNum.num 5, y := JSNum.undefined, theta := JSNum.undefined,
                     speed := JSNum.undefined, powerups := none }),
       ("p2", none)]
      "p1"
      { id := some "p1", name := some "bob", room := some "lobby",
        x := JSNum.num 5, y := JSNum.undefined, theta := JSNum.undefined,
        speed := JSNum.undefined, powerups := none }
      (by decide) (by decide)).2.2.1⟩

/-! ## Claims on the powerup list -/

theorem splice_one_of_nonneg {α : Type} (a : List α) (i : Int) (h0 : 0 ≤ i) :
    splice a i 1 = a.eraseIdx i.toNat := by
  obtain ⟨n, rfl⟩ := Int.eq_ofNat_of_zero_le h0
  unfold splice
  have hneg : ¬ ((n : Int) < 0) := by omega
  simp only [hneg, if_false, Int.toNat_ofNat]
  by_cases hlt : n < a.length
  · have h1 : min (n : Int) (a.length : Int) = n := by omega
    have h2 : min (max (1 : Int) 0) ((a.length : Int) - n) = 1 := by omega
    rw [h1, h2, List.eraseIdx_eq_take_drop_succ]
    simp
  · have h1 : min (n : Int) (a.length : Int) = a.length := by omega
    have h2 : min (max (1 : Int) 0) ((a.length : Int) - a.length) = 0 := by omega
    rw [h1, h2, List.eraseIdx_of_length_le (by omega)]
    simp

theorem splice_one_of_neg {α : Type} (a : List α) (i : Int) (h0 : i < 0) :
    splice a i 1 = a.eraseIdx (max ((a.length : Int) + i) 0).toNat := by
  unfold splice
  simp only [h0, if_true]
  by_cases hlen : a.length = 0
  · have : a = [] := List.length_eq_zero.1 hlen
    subst this
    simp
  · obtain ⟨m, hm⟩ := Int.eq_ofNat_of_zero_le (le_max_right ((a.length : Int) + i) 0)
    have hmlt : m < a.length := by omega
    have h2 : min (max (1 : Int) 0) ((a.length : Int) - m) = 1 := by omega
    rw [hm, h2, List.eraseIdx_eq_take_drop_succ]
    simp

/-- Claim C6 (collectible removal sequencing). For every powerup list and every
integer index `i` with `0 ≤ i < length`, the `serverSendPowerupChange` handler
leaves the list with exactly the element at position `i` removed: the length
drops by one, every position `j < i` keeps its element and every position
`j ≥ i` holds the element formerly at `j + 1`. In particular `[A, B, C]` with
index 1 gives `[A, C]`, and a further index 1 gives `[A]`. -/
theorem serverSendPowerupChange_removes_at {α : Type} (powerups : List α) (index : Int)
    (h0 : 0 ≤ index) (h1 : index < powerups.length) :
    serverSendPowerupChange powerups index = powerups.eraseIdx index.toNat ∧
    (serverSendPowerupChange powerups index).length = powerups.length - 1 ∧
    (∀ j, j < index.toNat → (serverSendPowerupChange powerups index)[j]? = powerups[j]?) ∧
    (∀ j, index.toNat ≤ j →
      (serverSendPowerupChange powerups index)[j]? = powerups[j + 1]?) ∧
    ∀ A B C : α, serverSendPowerupChange [A, B, C] 1 = [A, C] ∧
      serverSendPowerupChange [A, C] 1 = [A] := by
  have h : serverSendPowerupChange powerups index = powerups.eraseIdx index.toNat :=
    splice_one_of_nonneg powerups index h0
  have hlt : index.toNat < powerups.length := by omega
  refine ⟨h, ?_, ?_, ?_, ?_⟩
  · rw [h, List.length_eraseIdx, if_pos hlt]
  · intro j hj
    rw [h, List.getElem?_eraseIdx_of_lt _ _ _ hj]
  · intro j hj
    rw [h, List.getElem?_eraseIdx_of_ge _ _ _ hj]
  · intro A B C
    exact ⟨splice_one_of_nonneg [A, B, C] 1 (by decide), splice_one_of_nonneg [A, C] 1 (by decide)⟩

theorem serverSendPowerupChange_removes_at_witness :
    (0 : Int) ≤ 1 ∧ (1 : Int) < (["A", "B", "C"] : List String).length ∧
      serverSendPowerupChange ["A", "B", "C"] 1 = ["A", "C"] :=
  ⟨by decide, by decide,
    (serverSendPowerupChange_removes_at ["A", "B", "C"] 1 (by decide) (by decide)).1⟩

/-- Claim C7, refuted as stated. The current list holds one collectible `Z`
and one entry of type `A` arrives: the list afterwards has two elements, the
old `Z` still first, and the new collectible got slot index 1, not 0. Here
`createPowerup` pairs the type tag with the slot index. -/
theorem serverSendPowerupArray_keeps_previous :
    serverSendPowerupArray (fun (typeID : String) (index : Nat) => (typeID, index))
        [("Z", 0)] ["A"] = [("Z", 0), ("A", 1)] ∧
      (serverSendPowerupArray (fun (typeID : String) (index : Nat) => (typeID, index))
        [("Z", 0)] ["A"]).length ≠ ["A"].length ∧
      (serverSendPowerupArray (fun (typeID : String) (index : Nat) => (typeID, index))
        [("Z", 0)] ["A"])[0]? ≠ some ("A", 0) := by
  decide

/-- Claim C7, amended. For every current powerup list and every arriving
sequence of length `n`, the `serverSendPowerupArray` handler appends: the list
afterwards is the current list followed by `n` collectibles, the `k`-th created
from the type tag of the `k`-th arriving entry with slot index
`length(current) + k`. When the current list is empty, as at join time, this is
a list of exactly `n` collectibles whose `k`-th element was created from the
`k`-th type tag with slot index `k`. -/
theorem serverSendPowerupArray_appends {τ α : Type} (createPowerup : τ → Nat → α)
    (powerups : List α) (data : List τ) :
    serverSendPowerupArray createPowerup powerups data =
      powerups ++ data.mapIdx (fun k typeID => createPowerup typeID (powerups.length + k)) ∧
    (serverSendPowerupArray createPowerup [] data).length = data.length ∧
    ∀ k, (serverSendPowerupArray createPowerup [] data)[k]? =
      (data[k]?).map (fun typeID => createPowerup typeID k) := by
  have h : ∀ (data : List τ) (powerups : List α),
      serverSendPowerupArray createPowerup powerups data =
        powerups ++ data.mapIdx (fun k typeID => createPowerup typeID (powerups.length + k)) := by
    intro data
    induction data with
    | nil => intro powerups; simp [serverSendPowerupArray]
    | cons t ts ih =>
      intro powerups
      have ih2 := ih (powerups ++ [createPowerup t powerups.length])
      unfold serverSendPowerupArray at ih2 ⊢
      rw [List.foldl_cons, ih2, List.mapIdx_cons]
      simp [Nat.add_assoc, Nat.add_comm 1]
  refine ⟨h data powerups, ?_, ?_⟩
  · rw [h data []]
    simp
  · intro k
    rw [h data []]
    simp

/-- Claim C8, refuted as stated. The index `-1` is outside the bounds of
`[A, B, C]`, yet the message is not dropped: `splice` counts a negative index
from the end and the last element is removed. -/
theorem serverSendPowerupChange_negative_removes :
    serverSendPowerupChange ["A", "B", "C"] (-1) = ["A", "B"] ∧
      serverSendPowerupChange ["A", "B", "C"] (-1) ≠ ["A", "B", "C"] := by
  decide

/-- Claim C8, amended. For every powerup list and every integer index at or
beyond the length of the list, the `serverSendPowerupChange` handler leaves the
list as it is. A negative index is not dropped: it is counted from the end,
clamped at the first position, and the element there is removed. -/
theorem serverSendPowerupChange_out_of_range {α : Type} (powerups : List α) (index : Int) :
    ((powerups.length : Int) ≤ index → serverSendPowerupChange powerups index = powerups) ∧
    (index < 0 → serverSendPowerupChange powerups index =
      powerups.eraseIdx (max ((powerups.length : Int) + index) 0).toNat) := by
  constructor
  · intro h
    have h0 : 0 ≤ index := le_trans (Int.ofNat_nonneg _) h
    have h1 : serverSendPowerupChange powerups index = powerups.eraseIdx index.toNat :=
      splice_one_of_nonneg powerups index h0
    rw [h1, List.eraseIdx_of_length_le (by omega)]
  · intro h
    exact splice_one_of_neg powerups index h

theorem serverSendPowerupChange_out_of_range_witness :
    serverSendPowerupChange ["A", "B", "C"] 3 = ["A", "B", "C"] ∧
      serverSendPowerupChange ["A", "B", "C"] (-2) = ["A", "C"] :=
  ⟨(serverSendPowerupChange_out_of_range ["A", "B", "C"] 3).1 (by decide),
    (serverSendPowerupChange_out_of_range ["A", "B", "C"] (-2)).2 (by decide)⟩

/-! ## Claims on the movement part of `draw` -/

/-- Claim C10, refuted as stated. With `MAX_SPEED = 6`, `VELOCITY_STEP = 9/10`
and `speedMult = 1`, the player is at rest with `isMoving` false, input is
accepted and left is held. Held by the A key: the tick leaves `vx = 0`, since
`movePlayer` does nothing while `isMoving` is false and `isMoving` is set only
after the four tests. Held by the joystick flag alone: `vx` stays 0 and
`isMoving` stays false, so the following ticks do the same. -/
theorem draw_held_without_isMoving :
    (drawMove { MAX_SPEED := 6, VELOCITY_STEP := 9 / 10 } true
        { leftDown := false, rightDown := false, upDown := false, downDown := false }
        { left := true, right := false, up := false, down := false }
        { posX := 0, posY := 0, vx := 0, vy := 0, speedMult := 1, isMoving := false,
          x := 0, y := 0 }).1.vx = 0 ∧
    (drawMove { MAX_SPEED := 6, VELOCITY_STEP := 9 / 10 } true
        { leftDown := true, rightDown := false, upDown := false, downDown := false }
        { left := false, right := false, up := false, down := false }
        { posX := 0, posY := 0, vx := 0, vy := 0, speedMult := 1, isMoving := false,
          x := 0, y := 0 }).1.vx = 0 ∧
    (drawMove { MAX_SPEED := 6, VELOCITY_STEP := 9 / 10 } true
        { leftDown := true, rightDown := false, upDown := false, downDown := false }
        { left := false, right := false, up := false, down := false }
        { posX := 0, posY := 0, vx := 0, vy := 0, speedMult := 1, isMoving := false,
          x := 0, y := 0 }).1.isMoving = false ∧
    (0 : ℚ) > -6 * 1 := by
  norm_num [drawMove, drawKeys, drawDamp, movePlayer]

theorem movePlayer_of_isMoving (G : Global) (player : LocalPlayer) (direction : String)
    (h : player.isMoving = true) :
    movePlayer G player direction =
      if direction = "up" then
        { player with vy := player.vy + G.VELOCITY_STEP * player.speedMult }
      else if direction = "down" then
        { player with vy := player.vy - G.VELOCITY_STEP * player.speedMult }
      else if direction = "right" then
        { player with vx := player.vx + G.VELOCITY_STEP * player.speedMult }
      else if direction = "left" then
        { player with vx := player.vx - G.VELOCITY_STEP * player.speedMult }
      else player := by
  unfold movePlayer
  rw [if_pos h]
  by_cases h1 : direction = "up"
  · subst h1; simp
  by_cases h2 : direction = "down"
  · subst h2; simp [sub_eq_add_neg]
  by_cases h3 : direction = "right"
  · subst h3; simp
  by_cases h4 : direction = "left"
  · subst h4; simp [sub_eq_add_neg]
  simp [h1, h2, h3, h4]

theorem movePlayer_of_not_isMoving (G : Global) (player : LocalPlayer) (direction : String)
    (h : player.isMoving = false) : movePlayer G player direction = player := by
  unfold movePlayer
  simp [h]

theorem foldl_isMoving_velocity (ks : List Bool) (player : LocalPlayer) :
    (ks.foldl (fun player isDown => if isDown then { player with isMoving := true } else player)
      player).vx = player.vx ∧
    (ks.foldl (fun player isDown => if isDown then { player with isMoving := true } else player)
      player).vy = player.vy := by
  induction ks generalizing player with
  | nil => exact ⟨rfl, rfl⟩
  | cons k ks ih =>
    rw [List.foldl_cons]
    cases k
    · simpa using ih player
    · simpa using ih { player with isMoving := true }

theorem ite_movePlayer_left (G : Global) (player : LocalPlayer) (h : player.isMoving = true) (c : Prop)
    [Decidable c] :
    (if c then movePlayer G player "left" else player) =
      { player with
        vx := if c then player.vx - G.VELOCITY_STEP * player.speedMult else player.vx } := by
  split <;> simp [movePlayer_of_isMoving G player _ h]

theorem ite_movePlayer_right (G : Global) (player : LocalPlayer) (h : player.isMoving = true) (c : Prop)
    [Decidable c] :
    (if c then movePlayer G player "right" else player) =
      { player with
        vx := if c then player.vx + G.VELOCITY_STEP * player.speedMult else player.vx } := by
  split <;> simp [movePlayer_of_isMoving G player _ h]

theorem ite_movePlayer_up (G : Global) (player : LocalPlayer) (h : player.isMoving = true) (c : Prop)
    [Decidable c] :
    (if c then movePlayer G player "up" else player) =
      { player with
        vy := if c then player.vy + G.VELOCITY_STEP * player.speedMult else player.vy } := by
  split <;> simp [movePlayer_of_isMoving G player _ h]

theorem ite_movePlayer_down (G : Global) (player : LocalPlayer) (h : player.isMoving = true) (c : Prop)
    [Decidable c] :
    (if c then movePlayer G player "down" else player) =
      { player with
        vy := if c then player.vy - G.VELOCITY_STEP * player.speedMult else player.vy } := by
  split <;> simp [movePlayer_of_isMoving G player _ h]

/-- Claim C10, amended. In a tick of `draw` in which the local player exists and
input is accepted, the four directions are tested in the order left, right,
up, down. When `player.isMoving` is already true at the start of the tick, each
held direction (move key down or joystick flag set) whose velocity component,
at the moment of its test, has not reached `MAX_SPEED * speedMult` in that
direction changes the component by exactly `VELOCITY_STEP * speedMult` toward
that direction, and a held direction whose component has reached the limit
gets no increment; `vxL` and `vyU` are the components after the left and the up
test. When `player.isMoving` is false at the start of the tick, no held
direction changes the velocity. The values are those at the end of the key
handling block; the damping block after it leaves an axis alone when one of
its two move keys is down. -/
theorem drawKeys_accelerates (G : Global) (joystick : MobileKey) (moveKeys : MoveKeys)
    (player : LocalPlayer) (step lim : ℚ) (hstep : step = G.VELOCITY_STEP * player.speedMult)
    (hlim : lim = G.MAX_SPEED * player.speedMult) :
    (player.isMoving = true →
      ∃ vxL vyU,
        vxL = (if (moveKeys.left || joystick.leftDown) = true ∧ player.vx > -lim
          then player.vx - step else player.vx) ∧
        (drawKeys G true joystick moveKeys player).1.vx =
          (if (moveKeys.right || joystick.rightDown) = true ∧ vxL < lim
            then vxL + step else vxL) ∧
        vyU = (if (moveKeys.up || joystick.upDown) = true ∧ player.vy < lim
          then player.vy + step else player.vy) ∧
        (drawKeys G true joystick moveKeys player).1.vy =
          (if (moveKeys.down || joystick.downDown) = true ∧ vyU > -lim
            then vyU - step else vyU)) ∧
    (player.isMoving = false →
      (drawKeys G true joystick moveKeys player).1.vx = player.vx ∧
      (drawKeys G true joystick moveKeys player).1.vy = player.vy) ∧
    (moveKeys.left = true ∨ moveKeys.right = true →
      (drawMove G true joystick moveKeys player).1.vx =
        (drawKeys G true joystick moveKeys player).1.vx) ∧
    (moveKeys.up = true ∨ moveKeys.down = true →
      (drawMove G true joystick moveKeys player).1.vy =
        (drawKeys G true joystick moveKeys player).1.vy) := by
  subst hstep hlim
  have hk : (drawKeys G true joystick moveKeys player).2 = moveKeys := by
    simp [drawKeys]
  refine ⟨?_, ?_, ?_, ?_⟩
  · intro hm
    refine ⟨_, _, rfl, ?_, rfl, ?_⟩
    · unfold drawKeys
      simp only [if_true]
      rw [ite_movePlayer_left G player hm, ite_movePlayer_right G, ite_movePlayer_up G, ite_movePlayer_down G,
        (foldl_isMoving_velocity _ _).1]
      · simp only [neg_mul]
      all_goals exact hm
    · unfold drawKeys
      simp only [if_true]
      rw [ite_movePlayer_left G player hm, ite_movePlayer_right G, ite_movePlayer_up G, ite_movePlayer_down G,
        (foldl_isMoving_velocity _ _).2]
      · simp only [neg_mul]
      all_goals exact hm
  · intro hm
    have h0 : ∀ (c : Prop) [Decidable c] (d : String),
        (if c then movePlayer G player d else player) = player := by
      intro c _ d
      rw [movePlayer_of_not_isMoving G player d hm, ite_self]
    unfold drawKeys
    simp only [if_true]
    rw [h0, h0, h0, h0, (foldl_isMoving_velocity _ _).1, (foldl_isMoving_velocity _ _).2]
    exact ⟨rfl, rfl⟩
  · intro h
    simp only [drawMove, drawDamp, hk]
    rcases h with h | h <;> cases hu : (!moveKeys.up && !moveKeys.down) <;> simp [h]
  · intro h
    simp only [drawMove, drawDamp, hk]
    rcases h with h | h <;> cases hu : (!moveKeys.left && !moveKeys.right) <;> simp [h]

theorem drawKeys_accelerates_witness :
    (drawKeys { MAX_SPEED := 6, VELOCITY_STEP := 9 / 10 } true
      { leftDown := false, rightDown := false, upDown := false, downDown := false }
      { left := true, right := false, up := false, down := false }
      { posX := 0, posY := 0, vx := 0, vy := 0, speedMult := 1, isMoving := true,
        x := 0, y := 0 }).1.vx = -(9 / 10) := by
  obtain ⟨vxL, vyU, h1, h2, -, -⟩ :=
    (drawKeys_accelerates { MAX_SPEED := 6, VELOCITY_STEP := 9 / 10 }
      { leftDown := false, rightDown := false, upDown := false, downDown := false }
      { left := true, right := false, up := false, down := false }
      { posX := 0, posY := 0, vx := 0, vy := 0, speedMult := 1, isMoving := true,
        x := 0, y := 0 } (9 / 10) 6 (by norm_num) (by norm_num)).1 rfl
  rw [h2, h1]
  norm_num

theorem movePlayer_vertical_vx (G : Global) (player : LocalPlayer) (c : Prop) [Decidable c] :
    (if c then movePlayer G player "up" else player).vx = player.vx ∧
    (if c then movePlayer G player "down" else player).vx = player.vx := by
  unfold movePlayer
  constructor <;> split <;> try rfl
  all_goals split <;> simp

theorem movePlayer_horizontal_vy (G : Global) (player : LocalPlayer) (c : Prop) [Decidable c] :
    (if c then movePlayer G player "left" else player).vy = player.vy ∧
    (if c then movePlayer G player "right" else player).vy = player.vy := by
  unfold movePlayer
  constructor <;> split <;> try rfl
  all_goals split <;> simp

theorem drawDamp_velocity (G : Global) (moveKeys : MoveKeys) (player : LocalPlayer) :
    (drawDamp G moveKeys player).vx =
      (if (!moveKeys.left && !moveKeys.right) = true then player.vx * G.VELOCITY_STEP
        else player.vx) ∧
    (drawDamp G moveKeys player).vy =
      (if (!moveKeys.up && !moveKeys.down) = true then player.vy * G.VELOCITY_STEP
        else player.vy) := by
  obtain ⟨l, r, u, d⟩ := moveKeys
  cases l <;> cases r <;> cases u <;> cases d <;> simp [drawDamp]

theorem drawMove_vx_of_idle (G : Global) (accept : Bool) (joystick : MobileKey)
    (moveKeys : MoveKeys) (player : LocalPlayer) (hl : moveKeys.left = false)
    (hr : moveKeys.right = false) (hjl : joystick.leftDown = false)
    (hjr : joystick.rightDown = false) :
    (drawMove G accept joystick moveKeys player).1.vx = player.vx * G.VELOCITY_STEP := by
  cases accept with
  | false => simp [drawMove, drawKeys, drawDamp]
  | true =>
    have hk : (drawKeys G true joystick moveKeys player).2 = moveKeys := by simp [drawKeys]
    have hv : (drawKeys G true joystick moveKeys player).1.vx = player.vx := by
      unfold drawKeys
      simp only [if_true, hl, hr, hjl, hjr, Bool.or_self, Bool.false_eq_true, false_and,
        if_false]
      rw [(foldl_isMoving_velocity _ _).1]
      show (if _ then movePlayer G _ "down" else _).vx = player.vx
      rw [(movePlayer_vertical_vx G _ _).2, (movePlayer_vertical_vx G _ _).1]
    simp only [drawMove, (drawDamp_velocity _ _ _).1, hk, hl, hr, hv]
    simp

theorem drawMove_vy_of_idle (G : Global) (accept : Bool) (joystick : MobileKey)
    (moveKeys : MoveKeys) (player : LocalPlayer) (hu : moveKeys.up = false)
    (hd : moveKeys.down = false) (hju : joystick.upDown = false)
    (hjd : joystick.downDown = false) :
    (drawMove G accept joystick moveKeys player).1.vy = player.vy * G.VELOCITY_STEP := by
  cases accept with
  | false => simp [drawMove, drawKeys, drawDamp]
  | true =>
    have hk : (drawKeys G true joystick moveKeys player).2 = moveKeys := by simp [drawKeys]
    have hv : (drawKeys G true joystick moveKeys player).1.vy = player.vy := by
      unfold drawKeys
      simp only [if_true, hu, hd, hju, hjd, Bool.or_self, Bool.false_eq_true, false_and,
        if_false]
      rw [(foldl_isMoving_velocity _ _).2]
      show (if _ then movePlayer G _ "right" else _).vy = player.vy
      rw [(movePlayer_horizontal_vy G _ _).2, (movePlayer_horizontal_vy G _ _).1]
    simp only [drawMove, (drawDamp_velocity _ _ _).2, hk, hu, hd, hv]
    simp

theorem tick_keeps_motion (S : Screen) (sameId : Bool) (p : LocalPlayer) :
    (LocalPlayer.tick S sameId p).vx = p.vx ∧ (LocalPlayer.tick S sameId p).vy = p.vy ∧
    (LocalPlayer.tick S sameId p).posX = p.posX + p.vx ∧
    (LocalPlayer.tick S sameId p).posY = p.posY + p.vy := by
  cases sameId <;> simp [LocalPlayer.tick, GameObject.tick, GameObject.draw]

theorem draw_some (G : Global) (S : Screen) (accept : Bool) (joystick : MobileKey)
    (sameId : Bool) (moveKeys : MoveKeys) (player : LocalPlayer) :
    (draw G S accept joystick sameId moveKeys (some player)).1 =
      some (LocalPlayer.tick S sameId (drawMove G accept joystick moveKeys player).1) := rfl

theorem damped_value (d v : ℚ) (hd0 : 0 < d) (hd1 : d < 1) (hv : v ≠ 0) :
    (0 < v * d ↔ 0 < v) ∧ (v * d < 0 ↔ v < 0) ∧ |v * d| < |v| ∧ v * d ≠ 0 := by
  refine ⟨?_, ?_, ?_, mul_ne_zero hv (ne_of_gt hd0)⟩
  · constructor
    · intro h
      exact (pos_iff_pos_of_mul_pos h).2 hd0
    · intro h
      exact mul_pos h hd0
  · constructor
    · intro h
      by_contra hc
      have : 0 ≤ v * d := mul_nonneg (not_lt.1 hc) hd0.le
      linarith
    · intro h
      exact mul_neg_of_neg_of_pos h hd0
  · rw [abs_mul, abs_of_pos hd0]
    have hpos : 0 < |v| := abs_pos.2 hv
    nlinarith

/-- Claim C11 (per-tick damping). In every tick of `draw` in which the local
player exists and no direction of an axis is held (neither move key down nor
joystick flag set, for left and right on the x axis, for up and down on the y
axis), the velocity of that axis after the tick is its velocity before the tick
times `GLOBAL.VELOCITY_STEP`. When that factor lies strictly between 0 and 1
and the velocity is not zero, the result has the sign of the velocity, a
strictly smaller magnitude, and is not zero (exact arithmetic). -/
theorem draw_damps_idle_axis (G : Global) (S : Screen) (accept : Bool) (joystick : MobileKey)
    (sameId : Bool) (moveKeys : MoveKeys) (player : LocalPlayer) :
    ∃ q, (draw G S accept joystick sameId moveKeys (some player)).1 = some q ∧
      (moveKeys.left = false → moveKeys.right = false → joystick.leftDown = false →
        joystick.rightDown = false →
          q.vx = player.vx * G.VELOCITY_STEP ∧
          (0 < G.VELOCITY_STEP → G.VELOCITY_STEP < 1 → player.vx ≠ 0 →
            (0 < q.vx ↔ 0 < player.vx) ∧ (q.vx < 0 ↔ player.vx < 0) ∧
            |q.vx| < |player.vx| ∧ q.vx ≠ 0)) ∧
      (moveKeys.up = false → moveKeys.down = false → joystick.upDown = false →
        joystick.downDown = false →
          q.vy = player.vy * G.VELOCITY_STEP ∧
          (0 < G.VELOCITY_STEP → G.VELOCITY_STEP < 1 → player.vy ≠ 0 →
            (0 < q.vy ↔ 0 < player.vy) ∧ (q.vy < 0 ↔ player.vy < 0) ∧
            |q.vy| < |player.vy| ∧ q.vy ≠ 0)) := by
  refine ⟨_, draw_some G S accept joystick sameId moveKeys player, ?_, ?_⟩
  · intro hl hr hjl hjr
    have h : (LocalPlayer.tick S sameId (drawMove G accept joystick moveKeys player).1).vx =
        player.vx * G.VELOCITY_STEP := by
      rw [(tick_keeps_motion S sameId _).1,
        drawMove_vx_of_idle G accept joystick moveKeys player hl hr hjl hjr]
    refine ⟨h, fun hd0 hd1 hv => ?_⟩
    rw [h]
    exact damped_value G.VELOCITY_STEP player.vx hd0 hd1 hv
  · intro hu hd hju hjd
    have h : (LocalPlayer.tick S sameId (drawMove G accept joystick moveKeys player).1).vy =
        player.vy * G.VELOCITY_STEP := by
      rw [(tick_keeps_motion S sameId _).2.1,
        drawMove_vy_of_idle G accept joystick moveKeys player hu hd hju hjd]
    refine ⟨h, fun hd0 hd1 hv => ?_⟩
    rw [h]
    exact damped_value G.VELOCITY_STEP player.vy hd0 hd1 hv

theorem draw_damps_idle_axis_witness :
    ∃ q, (draw { MAX_SPEED := 6, VELOCITY_STEP := 9 / 10 }
        { screenCenterX := 400, screenCenterY := 300 } true
        { leftDown := false, rightDown := false, upDown := false, downDown := false } true
        { left := false, right := false, up := true, down := false }
        (some { posX := 0, posY := 0, vx := 2, vy := 0, speedMult := 1, isMoving := true,
                x := 400, y := 300 })).1 = some q ∧
      q.vx = 2 * (9 / 10) ∧ |q.vx| < |(2 : ℚ)| ∧ q.vx ≠ 0 := by
  obtain ⟨q, hq, hx, -⟩ := draw_damps_idle_axis { MAX_SPEED := 6, VELOCITY_STEP := 9 / 10 }
    { screenCenterX := 400, screenCenterY := 300 } true
    { leftDown := false, rightDown := false, upDown := false, downDown := false } true
    { left := false, right := false, up := true, down := false }
    { posX := 0, posY := 0, vx := 2, vy := 0, speedMult := 1, isMoving := true,
      x := 400, y := 300 }
  obtain ⟨h1, h2⟩ := hx rfl rfl rfl rfl
  obtain ⟨-, -, h3, h4⟩ := h2 (by norm_num) (by norm_num) (by norm_num)
  exact ⟨q, hq, h1, h3, h4⟩

theorem movePlayer_position (G : Global) (player : LocalPlayer) (direction : String) :
    (movePlayer G player direction).posX = player.posX ∧
    (movePlayer G player direction).posY = player.posY := by
  unfold movePlayer
  split
  · constructor <;> (repeat' split) <;> rfl
  · exact ⟨rfl, rfl⟩

theorem ite_movePlayer_position (G : Global) (player : LocalPlayer) (direction : String)
    (c : Prop) [Decidable c] :
    (if c then movePlayer G player direction else player).posX = player.posX ∧
    (if c then movePlayer G player direction else player).posY = player.posY := by
  split
  · exact movePlayer_position G player direction
  · exact ⟨rfl, rfl⟩

theorem foldl_isMoving_position (ks : List Bool) (player : LocalPlayer) :
    (ks.foldl (fun player isDown => if isDown then { player with isMoving := true } else player)
      player).posX = player.posX ∧
    (ks.foldl (fun player isDown => if isDown then { player with isMoving := true } else player)
      player).posY = player.posY := by
  induction ks generalizing player with
  | nil => exact ⟨rfl, rfl⟩
  | cons k ks ih =>
    rw [List.foldl_cons]
    cases k
    · simpa using ih player
    · simpa using ih { player with isMoving := true }

theorem drawKeys_position (G : Global) (accept : Bool) (joystick : MobileKey)
    (moveKeys : MoveKeys) (player : LocalPlayer) :
    (drawKeys G accept joystick moveKeys player).1.posX = player.posX ∧
    (drawKeys G accept joystick moveKeys player).1.posY = player.posY := by
  cases accept with
  | false => exact ⟨rfl, rfl⟩
  | true =>
    unfold drawKeys
    simp only [if_true]
    rw [(foldl_isMoving_position _ _).1, (foldl_isMoving_position _ _).2]
    show (if _ then movePlayer G _ "down" else _).posX = _ ∧
      (if _ then movePlayer G _ "down" else _).posY = _
    rw [(ite_movePlayer_position G _ _ _).1, (ite_movePlayer_position G _ _ _).2,
      (ite_movePlayer_position G _ _ _).1, (ite_movePlayer_position G _ _ _).2,
      (ite_movePlayer_position G _ _ _).1, (ite_movePlayer_position G _ _ _).2,
      (ite_movePlayer_position G _ _ _).1, (ite_movePlayer_position G _ _ _).2]
    exact ⟨rfl, rfl⟩

theorem drawDamp_position (G : Global) (moveKeys : MoveKeys) (player : LocalPlayer) :
    (drawDamp G moveKeys player).posX = player.posX ∧
    (drawDamp G moveKeys player).posY = player.posY := by
  obtain ⟨l, r, u, d⟩ := moveKeys
  cases l <;> cases r <;> cases u <;> cases d <;> simp [drawDamp]

theorem drawMove_position (G : Global) (accept : Bool) (joystick : MobileKey)
    (moveKeys : MoveKeys) (player : LocalPlayer) :
    (drawMove G accept joystick moveKeys player).1.posX = player.posX ∧
    (drawMove G accept joystick moveKeys player).1.posY = player.posY := by
  simp only [drawMove]
  rw [(drawDamp_position G _ _).1, (drawDamp_position G _ _).2]
  exact drawKeys_position G accept joystick moveKeys player

/-- Claim C12 (position integration). In every tick of `draw` in which the local
player exists, the world position after the tick is the position before the
tick plus the velocity as the tick has updated it (after key handling and
damping): `posX' = posX + vx'` and `posY' = posY + vy'`, one addition per tick.
The `move` message emitted afterwards carries that position and velocity. -/
theorem draw_integrates_position (G : Global) (S : Screen) (accept : Bool)
    (joystick : MobileKey) (sameId : Bool) (moveKeys : MoveKeys) (player : LocalPlayer) :
    ∃ q, (draw G S accept joystick sameId moveKeys (some player)).1 = some q ∧
      q.vx = (drawMove G accept joystick moveKeys player).1.vx ∧
      q.vy = (drawMove G accept joystick moveKeys player).1.vy ∧
      q.posX = player.posX + q.vx ∧ q.posY = player.posY + q.vy ∧
      (draw G S accept joystick sameId moveKeys (some player)).2.2 =
        some { posX := q.posX, posY := q.posY, vx := q.vx, vy := q.vy } := by
  refine ⟨_, draw_some G S accept joystick sameId moveKeys player,
    (tick_keeps_motion S sameId _).1, (tick_keeps_motion S sameId _).2.1, ?_, ?_, rfl⟩
  · rw [(tick_keeps_motion S sameId _).2.2.1, (tick_keeps_motion S sameId _).1,
      (drawMove_position G accept joystick moveKeys player).1]
  · rw [(tick_keeps_motion S sameId _).2.2.2, (tick_keeps_motion S sameId _).2.1,
      (drawMove_position G accept joystick moveKeys player).2]

theorem draw_integrates_position_example :
    (draw { MAX_SPEED := 6, VELOCITY_STEP := 9 / 10 }
        { screenCenterX := 400, screenCenterY := 300 } true
        { leftDown := false, rightDown := false, upDown := false, downDown := false } true
        { left := false, right := true, up := false, down := false }
        (some { posX := 0, posY := 0, vx := 3, vy := 0, speedMult := 1, isMoving := true,
                x := 400, y := 300 })).1 =
      some { posX := 39 / 10, posY := 0, vx := 39 / 10, vy := 0, speedMult := 1,
             isMoving := true, x := 400, y := 300 } := by
  simp [draw, drawPlayer, drawMove, drawKeys, drawDamp, movePlayer, LocalPlayer.tick,
    GameObject.tick]
  norm_num

/-! ## Claims on the connection handlers -/

/-- Claim C13, refuted as stated. The session holds one player and one powerup
when a `reconnecting` event arrives: afterwards both registries are empty. -/
theorem onReconnecting_wipes_example :
    (onReconnecting
        { socketOpen := true,
          players := [("p1", Player.new (some "p1") (some "bob") (some "lobby") (JSNum.num 3)
            (JSNum.num 4) (JSNum.num 0) (JSNum.num 1) none)],
          powerups := ["A"], startMenuMessage := "" } 1).players = [] ∧
    (onReconnecting
        { socketOpen := true,
          players := [("p1", Player.new (some "p1") (some "bob") (some "lobby") (JSNum.num 3)
            (JSNum.num 4) (JSNum.num 0) (JSNum.num 1) none)],
          powerups := ["A"], startMenuMessage := "" } 1).powerups = [] := by
  decide

/-- Claim C13, amended. For every session state and every attempt number,
handling a `reconnecting` event runs `quitGame`: the socket is disconnected and
both registries are cleared, so afterwards the players mapping and the powerups
list are empty whatever they held before, and the menu shows
`Lost connection to server`. -/
theorem onReconnecting_clears {α : Type} (st : Session α) (attempt : Nat) :
    (onReconnecting st attempt).players = [] ∧
    (onReconnecting st attempt).powerups = [] ∧
    (onReconnecting st attempt).socketOpen = false ∧
    (onReconnecting st attempt).startMenuMessage = "Lost connection to server" :=
  ⟨rfl, rfl, rfl, rfl⟩

theorem fallbackTimer_of_connected (c : Conn) (h : c.connected = true) :
    fallbackTimer c = { c with calls := c.calls ++ [SocketCall.setupSocket c.socket] } := by
  simp [fallbackTimer, h]

theorem fallbackTimer_of_not_connected (c : Conn) (h : c.connected = false) :
    fallbackTimer c =
      { socket := Endpoint.SERVER_IP, connected := false,
        calls := c.calls ++ [SocketCall.disconnect c.socket,
          SocketCall.connect Endpoint.SERVER_IP, SocketCall.setupSocket Endpoint.SERVER_IP] } := by
  simp [fallbackTimer, h]

/-- Claim C16 (fallback race). When the timer of `startGame` fires while
`socket` holds the primary socket (`GLOBAL.LOCAL_HOST`) and no fallback call has
been made yet: if the primary is connected, the session keeps the primary
socket, the timer makes no `disconnect` call and opens no connection to
`GLOBAL.SERVER_IP`; the connection to the fallback is opened, and the primary
disconnected, exactly when the primary is not connected at that moment. -/
theorem fallbackTimer_race (c : Conn) (hprimary : c.socket = Endpoint.LOCAL_HOST)
    (hnone : SocketCall.connect Endpoint.SERVER_IP ∉ c.calls)
    (hopen : SocketCall.disconnect Endpoint.LOCAL_HOST ∉ c.calls) :
    (c.connected = true →
      (fallbackTimer c).socket = Endpoint.LOCAL_HOST ∧
      (fallbackTimer c).connected = true ∧
      SocketCall.disconnect Endpoint.LOCAL_HOST ∉ (fallbackTimer c).calls ∧
      SocketCall.connect Endpoint.SERVER_IP ∉ (fallbackTimer c).calls) ∧
    (SocketCall.connect Endpoint.SERVER_IP ∈ (fallbackTimer c).calls ↔ c.connected = false) ∧
    (SocketCall.disconnect Endpoint.LOCAL_HOST ∈ (fallbackTimer c).calls ↔
      c.connected = false) ∧
    ((fallbackTimer c).socket = Endpoint.SERVER_IP ↔ c.connected = false) := by
  cases hc : c.connected with
  | true =>
    rw [fallbackTimer_of_connected c hc]
    simp [hprimary, hnone, hopen, hc]
  | false =>
    rw [fallbackTimer_of_not_connected c hc]
    simp [hprimary, hc]

theorem fallbackTimer_race_witness :
    startGame true = some { socket := Endpoint.LOCAL_HOST, connected := false,
                            calls := [SocketCall.connect Endpoint.LOCAL_HOST] } ∧
    (fallbackTimer (onConnected { socket := Endpoint.LOCAL_HOST, connected := false,
                                  calls := [SocketCall.connect Endpoint.LOCAL_HOST] })).socket =
      Endpoint.LOCAL_HOST ∧
    SocketCall.connect Endpoint.SERVER_IP ∉
      (fallbackTimer (onConnected { socket := Endpoint.LOCAL_HOST, connected := false,
                                    calls := [SocketCall.connect Endpoint.LOCAL_HOST] })).calls ∧
    SocketCall.connect Endpoint.SERVER_IP ∈
      (fallbackTimer { socket := Endpoint.LOCAL_HOST, connected := false,
                       calls := [SocketCall.connect Endpoint.LOCAL_HOST] }).calls :=
  ⟨rfl,
    ((fallbackTimer_race
      (onConnected { socket := Endpoint.LOCAL_HOST, connected := false,
                     calls := [SocketCall.connect Endpoint.LOCAL_HOST] })
      rfl (by decide) (by decide)).1 rfl).1,
    ((fallbackTimer_race
      (onConnected { socket := Endpoint.LOCAL_HOST, connected := false,
                     calls := [SocketCall.connect Endpoint.LOCAL_HOST] })
      rfl (by decide) (by decide)).1 rfl).2.2.2,
    (fallbackTimer_race
      { socket := Endpoint.LOCAL_HOST, connected := false,
        calls := [SocketCall.connect Endpoint.LOCAL_HOST] }
      rfl (by decide) (by decide)).2.1.2 rfl⟩

/-! ## Claims on the local entity and on partial snapshots -/

theorem keys_assign_of_lookup (r : Registry) (k : String) (p q : Player)
    (h : lookup r k = some q) : keys (assign r k p) = keys r := by
  induction r with
  | nil => simp [lookup] at h
  | cons e r ih =>
    obtain ⟨k0, q0⟩ := e
    by_cases h0 : k0 = k
    · simp [assign, keys, h0]
    · have h1 : lookup r k = some q := by simpa [lookup, h0] using h
      have ih1 := ih h1
      simp only [keys] at ih1
      simp [assign, keys, h0, ih1]

theorem count_keys_assign_of_ne (r : Registry) (k id : String) (p : Player) (h : k ≠ id) :
    (keys (assign r k p)).count id = (keys r).count id := by
  induction r with
  | nil =>
    have h2 : ¬ (k == id) = true := by simpa using h
    simp [assign, keys, List.count_cons, h2]
  | cons e r ih =>
    obtain ⟨k0, q0⟩ := e
    simp only [keys] at ih
    by_cases h0 : k0 = k
    · simp [assign, keys, h0]
    · simp [assign, keys, h0, List.count_cons, ih]

theorem count_keys_deleteKey_of_ne (r : Registry) (k id : String) (h : k ≠ id) :
    (keys (deleteKey r k)).count id = (keys r).count id := by
  induction r with
  | nil => simp [deleteKey, keys]
  | cons e r ih =>
    obtain ⟨k0, q0⟩ := e
    simp only [keys, deleteKey] at ih
    by_cases h0 : k0 = k
    · subst h0
      have h2 : ¬ (k0 == id) = true := by simpa using h
      simp [deleteKey, keys, List.filter, List.count_cons, h2]
      simpa using ih
    · simp [deleteKey, keys, List.filter, h0, List.count_cons]
      simpa using ih

theorem lookup_ne_none_of_count (r : Registry) (id : String)
    (h : (keys r).count id = 1) : lookup r id ≠ none := by
  apply (mem_keys_iff r id).1
  apply List.count_pos_iff.1
  omega

theorem count_keys_syncEntry (r : Registry) (e : String × Option PlayerRecord) (id : String)
    (hone : (keys r).count id = 1) (hnot : e ≠ (id, none)) :
    (keys (syncEntry r e)).count id = 1 := by
  obtain ⟨k, v⟩ := e
  by_cases hk : k = id
  · subst hk
    cases v with
    | none => exact absurd rfl hnot
    | some pl =>
      cases hl : lookup r k with
      | none => exact absurd hl (lookup_ne_none_of_count r k hone)
      | some p =>
        simp only [syncEntry, hl]
        rw [keys_assign_of_lookup r k _ p hl]
        exact hone
  · cases v with
    | none =>
      simp only [syncEntry]
      rw [count_keys_deleteKey_of_ne r k id hk]
      exact hone
    | some pl =>
      cases hl : lookup r k <;> simp only [syncEntry, hl] <;>
        rw [count_keys_assign_of_ne r k id _ hk] <;> exact hone

theorem count_keys_foldl_syncEntry (s : Snapshot) (r : Registry) (id : String)
    (hone : (keys r).count id = 1) (hnot : (id, none) ∉ s) :
    (keys (s.foldl syncEntry r)).count id = 1 := by
  induction s generalizing r with
  | nil => exact hone
  | cons e s ih =>
    rw [List.foldl_cons]
    apply ih
    · apply count_keys_syncEntry r e id hone
      intro he
      exact hnot (he ▸ List.mem_cons_self e s)
    · intro hm
      exact hnot (List.mem_cons_of_mem e hm)

theorem keys_lerpEntry (LERP : ℚ) (socketId : String) (r : Registry) (pl : String) :
    keys (lerpEntry LERP socketId r pl) = keys r := by
  rw [lerpEntry_eq]
  cases hl : lookup r pl with
  | none => rfl
  | some p =>
    by_cases hs : pl = socketId
    · simp [hs]
    · simp only [ne_eq, hs, not_false_eq_true, if_true]
      exact keys_assign_of_lookup r pl _ p hl

theorem keys_foldl_lerpEntry (LERP : ℚ) (socketId : String) (ks : List String) (r : Registry) :
    keys (ks.foldl (lerpEntry LERP socketId) r) = keys r := by
  induction ks generalizing r with
  | nil => rfl
  | cons k ks ih => rw [List.foldl_cons, ih, keys_lerpEntry]

/-- Claim C14, refuted as stated. The registry holds exactly one entity, the
local one under `me`; a snapshot with `null` for `me` leaves an empty registry. -/
theorem playerSync_local_removed :
    (keys [("me", Player.new (some "me") (some "ann") (some "lobby") (JSNum.num 0)
        (JSNum.num 0) (JSNum.num 0) (JSNum.num 0) none)]).count "me" = 1 ∧
    playerSync (1 / 10) "me"
        [("me", Player.new (some "me") (some "ann") (some "lobby") (JSNum.num 0)
          (JSNum.num 0) (JSNum.num 0) (JSNum.num 0) none)]
        [("me", none)] = [] := by
  decide

/-- Claim C14, amended. For every registry that contains exactly one entity
under the local identifier `socket.id` and every snapshot whose entry for
`socket.id` is not `null` (a record, or no entry at all), the registry after
the `playerSync` handler still contains exactly one entity under that
identifier. A `null` entry for `socket.id` removes the local entity as it
removes any other. -/
theorem playerSync_keeps_local (LERP : ℚ) (socketId : String) (players : Registry)
    (data : Snapshot) (hone : (keys players).count socketId = 1) :
    ((socketId, none) ∉ data →
      (keys (playerSync LERP socketId players data)).count socketId = 1 ∧
      lookup (playerSync LERP socketId players data) socketId ≠ none) ∧
    ((data.map Prod.fst).Nodup → (socketId, none) ∈ data →
      (keys (playerSync LERP socketId players data)).count socketId = 0 ∧
      lookup (playerSync LERP socketId players data) socketId = none) := by
  constructor
  · intro hnot
    have h : (keys (playerSync LERP socketId players data)).count socketId = 1 := by
      unfold playerSync
      simp only
      rw [keys_foldl_lerpEntry]
      exact count_keys_foldl_syncEntry data players socketId hone hnot
    exact ⟨h, lookup_ne_none_of_count _ _ h⟩
  · intro hkeys hnull
    have h : lookup (playerSync LERP socketId players data) socketId = none := by
      rw [lookup_playerSync_of_mem LERP socketId players data socketId none hkeys hnull]
      rfl
    refine ⟨?_, h⟩
    apply List.count_eq_zero.2
    intro hmem
    exact (mem_keys_iff _ _).1 hmem h

theorem playerSync_keeps_local_witness :
    (keys (playerSync (1 / 10) "me"
        [("me", Player.new (some "me") (some "ann") (some "lobby") (JSNum.num 0)
          (JSNum.num 0) (JSNum.num 0) (JSNum.num 0) none)]
        [("p1", none),
         ("me", some { id := some "me", name := some "ann", room := some "lobby",
                       x := JSNum.num 5, y := JSNum.num 7, theta := JSNum.num 1,
                       speed := JSNum.num 2, powerups := none })])).count "me" = 1 :=
  ((playerSync_keeps_local (1 / 10) "me"
    [("me", Player.new (some "me") (some "ann") (some "lobby") (JSNum.num 0)
      (JSNum.num 0) (JSNum.num 0) (JSNum.num 0) none)]
    [("p1", none),
     ("me", some { id := some "me", name := some "ann", room := some "lobby",
                   x := JSNum.num 5, y := JSNum.num 7, theta := JSNum.num 1,
                   speed := JSNum.num 2, powerups := none })]
    (by decide)).1 (by decide)).1

theorem settle_of_num (v : JSNum) (a : ℚ) (h : v = JSNum.num a) : v.settle = v := by
  subst h
  rfl

/-- Claim C15 (partial snapshots). For every registry and every snapshot, an
identifier that is in the registry and has no entry in the snapshot is still in
the registry after the `playerSync` handler, and each of `x`, `y`, `theta`,
`speed` that holds a number is equal, over exact arithmetic, to its value
before; the other properties are kept, and the local entity is left as it was
altogether. Omission neither deletes nor moves an entity. -/
theorem playerSync_omitted_kept (LERP : ℚ) (socketId : String) (players : Registry)
    (data : Snapshot) (id : String) (p : Player) (hin : lookup players id = some p)
    (hnot : id ∉ data.map Prod.fst) :
    ∃ q, lookup (playerSync LERP socketId players data) id = some q ∧
      id ∈ keys (playerSync LERP socketId players data) ∧
      (∀ a, p.x = JSNum.num a → q.x = p.x) ∧ (∀ a, p.y = JSNum.num a → q.y = p.y) ∧
      (∀ a, p.theta = JSNum.num a → q.theta = p.theta) ∧
      (∀ a, p.speed = JSNum.num a → q.speed = p.speed) ∧
      (id = socketId → q = p) ∧
      q.id = p.id ∧ q.name = p.name ∧ q.room = p.room ∧ q.powerups = p.powerups := by
  have h : lookup (playerSync LERP socketId players data) id =
      some (afterLerp socketId id p) := by
    rw [lookup_playerSync_of_not_mem LERP socketId players data id hnot, hin]
    rfl
  have hnum : ∀ (f : Player → JSNum),
      (∀ r : Player, f (settled r) = (f r).settle) → ∀ a, f p = JSNum.num a →
        f (afterLerp socketId id p) = f p := by
    intro f hf a ha
    unfold afterLerp
    split
    · rw [hf, settle_of_num _ a ha]
    · rfl
  have hkeep : ∀ {β : Type} (f : Player → β), (∀ r : Player, f (settled r) = f r) →
      f (afterLerp socketId id p) = f p := by
    intro β f hf
    unfold afterLerp
    split
    · exact hf p
    · rfl
  refine ⟨afterLerp socketId id p, h, ?_, hnum (fun r => r.x) (fun _ => rfl),
    hnum (fun r => r.y) (fun _ => rfl), hnum (fun r => r.theta) (fun _ => rfl),
    hnum (fun r => r.speed) (fun _ => rfl), ?_, hkeep (fun r => r.id) (fun _ => rfl),
    hkeep (fun r => r.name) (fun _ => rfl), hkeep (fun r => r.room) (fun _ => rfl),
    hkeep (fun r => r.powerups) (fun _ => rfl)⟩
  · apply (mem_keys_iff _ _).2
    rw [h]
    simp
  · intro hs
    simp [afterLerp, hs]

theorem playerSync_omitted_kept_witness :
    lookup (playerSync (1 / 10) "me"
        [("p1", Player.new (some "p1") (some "bob") (some "lobby") (JSNum.num 3)
          (JSNum.num 4) (JSNum.num 5) (JSNum.num 6) none)]
        [("p2", none)]) "p1" =
      some (Player.new (some "p1") (some "bob") (some "lobby") (JSNum.num 3)
        (JSNum.num 4) (JSNum.num 5) (JSNum.num 6) none) := by
  obtain ⟨q, hq, -, hx, hy, ht, hs, -, h1, h2, h3, h4⟩ :=
    playerSync_omitted_kept (1 / 10) "me"
      [("p1", Player.new (some "p1") (some "bob") (some "lobby") (JSNum.num 3)
        (JSNum.num 4) (JSNum.num 5) (JSNum.num 6) none)]
      [("p2", none)] "p1"
      (Player.new (some "p1") (some "bob") (some "lobby") (JSNum.num 3)
        (JSNum.num 4) (JSNum.num 5) (JSNum.num 6) none)
      (by decide) (by decide)
  rw [hq]
  obtain ⟨qid, qname, qroom, qx, qy, qtheta, qspeed, qpowerups⟩ := q
  have e1 := hx 3 rfl
  have e2 := hy 4 rfl
  have e3 := ht 5 rfl
  have e4 := hs 6 rfl
  simp only [Player.new] at *
  subst h1 h2 h3 h4 e1 e2 e3 e4
  rfl

end Deinde
